import Mathlib

/-
  Shallow embedding of src/src/luamm.cc (C++ binding for Lua, namespace `lua`).

  The embedded interpreter runtime (the Lua C API: lua_pushstring, lua_rawget,
  lua_pcall, ...) is an external collaborator of this repository; its primitives
  are modelled here from their documented Lua 5.1 semantics over an explicit
  interpreter-state record.  The functions of luamm.cc itself (rawgetfield,
  closure_trampoline, exception::push_lua_error, state::call, state::state,
  state::equal, state::safe_compare, state::loadfile, state::tostring, ...) are
  translated statement by statement from the source.

  Conventions:
  - the value stack is a `List Value` with the HEAD being the TOP of the stack;
  - machine pointers are modelled by natural-number identities (a table,
    userdata or host-exception object is "the same object" iff ids are equal);
  - C++ exceptions in flight are the `hostExc` outcome; lua_error's longjmp is
    the `luaErr` outcome; pushing past the allocated capacity (memory-unsafe in
    C) is the `overflow` outcome; assertion failure / API misuse is `fault`.
-/

set_option autoImplicit false
set_option maxHeartbeats 1000000

namespace luamm

/-- Identities of the C functions the binding pushes onto the lua stack.
    Each constructor names one function from luamm.cc (or, for the two
    destructors, from the header's pushdestructor template). -/
inductive CFunId
  | excToString      -- exception_to_string
  | panicThrow       -- panic_throw
  | closureTramp     -- closure_trampoline
  | concatTramp      -- safe_concat_trampoline
  | cmpEqualTramp    -- safe_compare_trampoline<lua_equal>
  | cmpLessTramp     -- safe_compare_trampoline<lua_lessthan>
  | gcTramp          -- safe_gc_trampoline
  | gettableTramp    -- safe_misc_trampoline<lua_gettable, 1>
  | settableTramp    -- safe_misc_trampoline<lua_settable, 0>
  | nextTramp        -- safe_next_trampoline
  | destructorExcPtr -- pushdestructor<std::exception_ptr>
  | destructorCppFn  -- pushdestructor<cpp_function>
  deriving DecidableEq, Repr

/-- The data carried by a `lua::exception` object: the owning state (by
    pointer identity), the extracted message, and the registry key under which
    the captured lua error value is stored (fields L, what(), key of the
    source class). -/
structure LuaExcObj where
  L : Nat
  msg : String
  key : Int
  deriving DecidableEq, Repr

/-- Host (C++) exceptions, by runtime type; `hostOther ty id` stands for an
    arbitrary foreign exception type with identity `id` (two exceptions are
    the same object iff they are equal).  Source types: std::bad_alloc,
    lua::exception, lua::errfunc_error, lua::syntax_error, lua::file_error,
    lua::not_string_error, std::runtime_error. -/
inductive HostExc
  | badAlloc
  | luaExc (e : LuaExcObj)
  | errfuncErr (e : LuaExcObj)
  | syntaxErr (e : LuaExcObj)
  | fileErr (e : LuaExcObj)
  | notStringErr
  | runtimeErr (msg : String)
  | hostOther (ty : String) (id : Nat)
  deriving DecidableEq, Repr

/-- `catch (lua::exception &e)` catches lua::exception and its subclasses
    (errfunc_error, syntax_error, file_error all derive from lua::exception). -/
def isLuaExc : HostExc → Option LuaExcObj
  | .luaExc e => some e
  | .errfuncErr e => some e
  | .syntaxErr e => some e
  | .fileErr e => some e
  | _ => none

/-- Lua values.  Tables and full userdata are by-reference (heap ids);
    `lightuserdata` carries a raw pointer (here: the pointed-to object's id). -/
inductive Value
  | nil
  | boolean (b : Bool)
  | num (n : Int)
  | str (s : String)
  | lightuserdata (p : Nat)
  | table (id : Nat)
  | userdata (id : Nat)
  | cfun (f : CFunId)
  deriving DecidableEq, Repr

/-- Payload of a full userdata created by the binding: either a
    std::exception_ptr (held by exception identity) or a cpp_function
    (held by identity). -/
inductive UPayload
  | excPtr (e : HostExc)
  | cppFn (fnId : Nat)
  deriving DecidableEq, Repr

structure UDataObj where
  payload : UPayload
  meta : Option Nat
  deriving DecidableEq, Repr

/-- A heap table: string-keyed and integer-keyed parts, plus the next key
    luaL_ref will hand out (freshness abstraction of luaL_ref's free list). -/
structure TableObj where
  strMap : List (String × Value) := []
  intMap : List (Int × Value) := []
  nextRef : Int := 1
  deriving DecidableEq, Repr

/-- One lua_State plus the host-visible bookkeeping of the owning
    lua::state object.  `handleId` is the identity of the C++ state object
    (the `this` pointer); `cap` is the currently allocated stack capacity,
    `maxcap` the limit beyond which lua_checkstack fails; `stringMeta` is the
    shared metatable of strings installed by luaL_openlibs; `validFlag` is the
    contents of the heap-allocated liveness flag; `pcalls` counts invocations
    of the protected-call primitive (instrumentation used to state that an
    operation did or did not enter a protected call). -/
structure LuaState where
  handleId : Nat
  stack : List Value := []
  cap : Nat := 20
  maxcap : Nat := 1000
  registryStr : List (String × Value) := []
  tables : List (Nat × TableObj) := []
  udata : List (Nat × UDataObj) := []
  stringMeta : Option Nat := none
  fresh : Nat := 0
  validFlag : Bool := true
  panicf : Option CFunId := none
  pcalls : Nat := 0
  deriving DecidableEq, Repr

/-- Outcome of running one embedded operation. -/
inductive Outcome (α : Type)
  | ok (a : α)
  | hostExc (e : HostExc)
  | luaErr (v : Value)
  | overflow
  | fault
  deriving DecidableEq, Repr

/-- The effect monad of the embedding: state passing plus the four abnormal
    outcomes. -/
def M (α : Type) : Type := LuaState → Outcome α × LuaState

def M.pure {α : Type} (a : α) : M α := fun s => (.ok a, s)

def M.bind {α β : Type} (m : M α) (f : α → M β) : M β := fun s =>
  match m s with
  | (.ok a, s1) => f a s1
  | (.hostExc e, s1) => (.hostExc e, s1)
  | (.luaErr v, s1) => (.luaErr v, s1)
  | (.overflow, s1) => (.overflow, s1)
  | (.fault, s1) => (.fault, s1)

instance : Monad M where
  pure := M.pure
  bind := M.bind

@[simp] theorem M_bind_eq {α β : Type} (m : M α) (f : α → M β) (s : LuaState) :
    (m >>= f) s = match m s with
      | (.ok a, s1) => f a s1
      | (.hostExc e, s1) => (.hostExc e, s1)
      | (.luaErr v, s1) => (.luaErr v, s1)
      | (.overflow, s1) => (.overflow, s1)
      | (.fault, s1) => (.fault, s1) := rfl

@[simp] theorem M_pure_eq {α : Type} (a : α) (s : LuaState) :
    (Pure.pure a : M α) s = (.ok a, s) := rfl

/-- Throw a C++ exception (stack unwinding). -/
def throwHost {α : Type} (e : HostExc) : M α := fun s => (.hostExc e, s)

@[simp] theorem throwHost_eq {α : Type} (e : HostExc) (s : LuaState) :
    (throwHost e : M α) s = (.hostExc e, s) := rfl

def faultM {α : Type} : M α := fun s => (.fault, s)

/- ---------------------------------------------------------------------
   Lua C API primitives (external collaborator), modelled from the Lua 5.1
   reference manual.
   --------------------------------------------------------------------- -/

def REGISTRYINDEX : Int := -10000
def MULTRET : Int := -1
def LUA_ERRRUN : Nat := 2
def LUA_ERRSYNTAX : Nat := 3
def LUA_ERRMEM : Nat := 4
def LUA_ERRERR : Nat := 5
def MINSTACK : Nat := 20

namespace LuaState

def gettop (s : LuaState) : Nat := s.stack.length

/-- The value at an acceptable index: positive = from the bottom (1-based),
    negative = from the top (-1 = top); none when the index is non-valid. -/
def valueAt (s : LuaState) (i : Int) : Option Value :=
  if 0 < i ∧ i ≤ (s.stack.length : Int) then
    s.stack.get? ((s.stack.length : Int) - i).toNat
  else if i < 0 ∧ -i ≤ (s.stack.length : Int) then
    s.stack.get? (-i - 1).toNat
  else none

end LuaState

/-- luamm.cc line 51: absindex. -/
def absindex_raw (s : LuaState) (index : Int) : Int :=
  if index < 0 ∧ -index ≤ (s.gettop : Int) then (s.gettop : Int) + 1 + index else index

def absindexM (index : Int) : M Int := fun s => (.ok (absindex_raw s index), s)

/-- lua_checkstack: grows the stack capacity to hold `extra` more slots;
    returns false when that would exceed the allowed maximum (or allocation
    fails, modelled by `maxcap`). -/
def checkstack_raw (extra : Nat) : M Bool := fun s =>
  if s.stack.length + extra ≤ s.cap then (.ok true, s)
  else if s.stack.length + extra ≤ s.maxcap then
    (.ok true, { s with cap := s.stack.length + extra })
  else (.ok false, s)

/-- A raw push; pushing past the allocated capacity is the memory-unsafe
    outcome `overflow`. -/
def pushM (v : Value) : M Unit := fun s =>
  if s.stack.length < s.cap then (.ok (), { s with stack := v :: s.stack })
  else (.overflow, s)

/-- lua_pop(n). -/
def popM (n : Nat) : M Unit := fun s => (.ok (), { s with stack := s.stack.drop n })

/-- lua_pushvalue. -/
def pushvalueM (i : Int) : M Unit := fun s =>
  match s.valueAt i with
  | some v => pushM v s
  | none => (.fault, s)

/-- lua_insert(idx): pop the top value and reinsert it at stack position
    `idx` (a valid index), shifting the values above it up. -/
def insertM (i : Int) : M Unit := fun s =>
  match s.stack with
  | [] => (.fault, s)
  | top :: rest =>
    if 0 < absindex_raw s i ∧ absindex_raw s i ≤ (s.stack.length : Int) then
      (.ok (), { s with stack := rest.take ((s.stack.length : Int) - absindex_raw s i).toNat ++ top :: rest.drop ((s.stack.length : Int) - absindex_raw s i).toNat })
    else (.fault, s)

/-- lua_replace(idx): pop the top value and store it at position `idx`. -/
def replaceM (i : Int) : M Unit := fun s =>
  match s.stack with
  | [] => (.fault, s)
  | top :: rest =>
    if 0 < absindex_raw s i ∧ absindex_raw s i < (s.stack.length : Int) then
      (.ok (), { s with stack := rest.set ((s.stack.length : Int) - 1 - absindex_raw s i).toNat top })
    else (.fault, s)

def lookupStr : List (String × Value) → String → Option Value
  | [], _ => none
  | (k, v) :: rest, key => if k = key then some v else lookupStr rest key

def lookupInt : List (Int × Value) → Int → Option Value
  | [], _ => none
  | (k, v) :: rest, key => if k = key then some v else lookupInt rest key

def lookupNat {β : Type} : List (Nat × β) → Nat → Option β
  | [], _ => none
  | (k, v) :: rest, key => if k = key then some v else lookupNat rest key

def setNat {β : Type} (l : List (Nat × β)) (key : Nat) (v : β) : List (Nat × β) :=
  (key, v) :: l.filter (fun p => p.1 ≠ key)

/-- lua_rawget: t[k] where t is at index `i` (`REGISTRYINDEX` names the
    registry) and k is popped from the top; the result is pushed.  Net stack
    effect is zero, so no capacity is consumed. -/
def rawgetM (i : Int) : M Unit := fun s =>
  match s.stack with
  | [] => (.fault, s)
  | k :: rest =>
    if i = REGISTRYINDEX then
      match k with
      | .str kk => (.ok (), { s with stack := ((lookupStr s.registryStr kk).getD .nil) :: rest })
      | _ => (.ok (), { s with stack := Value.nil :: rest })
    else
      match s.valueAt i with
      | some (.table tid) =>
        match lookupNat s.tables tid with
        | some t =>
          match k with
          | .str kk => (.ok (), { s with stack := ((lookupStr t.strMap kk).getD .nil) :: rest })
          | .num n => (.ok (), { s with stack := ((lookupInt t.intMap n).getD .nil) :: rest })
          | _ => (.ok (), { s with stack := Value.nil :: rest })
        | none => (.fault, s)
      | _ => (.fault, s)

/-- lua_rawgeti(i, n): pushes t[n] for the table at index `i`. -/
def rawgetiM (i : Int) (n : Int) : M Unit := fun s =>
  match s.valueAt i with
  | some (.table tid) =>
    match lookupNat s.tables tid with
    | some t => pushM ((lookupInt t.intMap n).getD .nil) s
    | none => (.fault, s)
  | _ => (.fault, s)

/-- lua_rawset: t[k] = v where t is at index `i`, v is the top value and k is
    below it; pops both. -/
def rawsetM (i : Int) : M Unit := fun s =>
  match s.stack with
  | v :: .str kk :: rest =>
    if i = REGISTRYINDEX then
      (.ok (), { s with stack := rest, registryStr := (kk, v) :: s.registryStr })
    else
      match s.valueAt i with
      | some (.table tid) =>
        match lookupNat s.tables tid with
        | some t =>
          let tbls := setNat s.tables tid { t with strMap := (kk, v) :: t.strMap }
          (.ok (), { s with stack := rest, tables := tbls })
        | none => (.fault, s)
      | _ => (.fault, s)
  | _ => (.fault, s)

/-- lua_rawequal: primitive equality, false when either index is non-valid. -/
def rawequal_raw (s : LuaState) (i1 i2 : Int) : Bool :=
  match s.valueAt i1, s.valueAt i2 with
  | some v1, some v2 => v1 = v2
  | _, _ => false

def rawequalM (i1 i2 : Int) : M Bool := fun s => (.ok (rawequal_raw s i1 i2), s)

/-- lua_isnone. -/
def isnone_raw (s : LuaState) (i : Int) : Bool := (s.valueAt i).isNone

/-- lua_getmetatable(i): pushes the metatable of the value at `i` and returns
    true, or pushes nothing and returns false when it has none.  In this
    development only full userdata (set explicitly by the binding) and strings
    (whose shared metatable is installed by luaL_openlibs) carry metatables;
    the binding itself never installs a metatable on a plain table. -/
def getmetatableM (i : Int) : M Bool := fun s =>
  match s.valueAt i with
  | some (.userdata uid) =>
    match lookupNat s.udata uid with
    | some u =>
      match u.meta with
      | some tid =>
        if s.stack.length < s.cap then (.ok true, { s with stack := .table tid :: s.stack })
        else (.overflow, s)
      | none => (.ok false, s)
    | none => (.fault, s)
  | some (.str _) =>
    match s.stringMeta with
    | some tid =>
      if s.stack.length < s.cap then (.ok true, { s with stack := .table tid :: s.stack })
      else (.overflow, s)
    | none => (.ok false, s)
  | some _ => (.ok false, s)
  | none => (.fault, s)

/-- lua_setmetatable(i): pops a table from the top and installs it as the
    metatable of the value at `i` (the binding only does this on userdata). -/
def setmetatableM (i : Int) : M Unit := fun s =>
  match s.stack with
  | .table tid :: rest =>
    match s.valueAt i with
    | some (.userdata uid) =>
      match lookupNat s.udata uid with
      | some u =>
        let ud := setNat s.udata uid { u with meta := some tid }
        (.ok (), { s with stack := rest, udata := ud })
      | none => (.fault, s)
    | _ => (.fault, s)
  | _ => (.fault, s)

/-- lua_touserdata on a full userdata holding a std::exception_ptr: the
    pointed-to exception. -/
def touserdataExcPtrM (i : Int) : M HostExc := fun s =>
  match s.valueAt i with
  | some (.userdata uid) =>
    match lookupNat s.udata uid with
    | some { payload := .excPtr e, .. } => (.ok e, s)
    | _ => (.fault, s)
  | _ => (.fault, s)

/-- lua_newtable: pushes a fresh empty table. -/
def newtableM : M Unit := fun s =>
  if s.stack.length < s.cap then
    (.ok (), { s with stack := .table s.fresh :: s.stack, tables := (s.fresh, ({} : TableObj)) :: s.tables, fresh := s.fresh + 1 })
  else (.overflow, s)

/-- luaL_ref(t at index i): pops the top value and stores it in t under a
    fresh integer key, returning the key; a nil value yields LUA_REFNIL (-1)
    and stores nothing. -/
def refM (i : Int) : M Int := fun s =>
  match s.valueAt i with
  | some (.table tid) =>
    match s.stack with
    | v :: rest =>
      if v = .nil then (.ok (-1), { s with stack := rest })
      else
        match lookupNat s.tables tid with
        | some t =>
          let t2 := { t with intMap := (t.nextRef, v) :: t.intMap, nextRef := t.nextRef + 1 }
          (.ok t.nextRef, { s with stack := rest, tables := setNat s.tables tid t2 })
        | none => (.fault, s)
    | [] => (.fault, s)
  | _ => (.fault, s)

/- ---------------------------------------------------------------------
   luamm.cc, anonymous namespace: registry keys and the raw field helpers.
   --------------------------------------------------------------------- -/

/-- luamm.cc lines 29-32: keys for storing values in the lua registry. -/
def cpp_exception_metatable : String := "lua::cpp_exception_metatable"
def cpp_function_metatable : String := "lua::cpp_function_metatable"
def lua_exception_namespace : String := "lua::lua_exception_namespace"
def this_cpp_object : String := "lua::this_cpp_object"

/-- luamm.cc lines 55-63: rawgetfield — getfield without metamethods; throws
    std::bad_alloc when the stack cannot grow by one. -/
def rawgetfield (index : Int) (k : String) : M Unit := do
  let index ← absindexM index
  let ok ← checkstack_raw 1
  if ok then
    pushM (.str k)
    rawgetM index
  else throwHost .badAlloc

/-- luamm.cc lines 66-75: rawsetfield — setfield without metamethods; throws
    std::bad_alloc when the stack cannot grow by two. -/
def rawsetfield (index : Int) (k : String) : M Unit := do
  let index ← absindexM index
  let ok ← checkstack_raw 2
  if ok then
    pushM (.str k)
    insertM (-2)
    rawsetM index
  else throwHost .badAlloc

/- ---------------------------------------------------------------------
   lua::state member functions (luamm.cc).
   --------------------------------------------------------------------- -/

/-- luamm.cc lines 313-317: state::checkstack — throws std::bad_alloc when
    lua_checkstack fails. -/
def checkstack (extra : Nat) : M Unit := do
  let ok ← checkstack_raw extra
  if ok then pure () else throwHost .badAlloc

/-- lua_tolstring: returns the string representation of the value at `i` for
    strings and numbers (converting the number to a string in place on the
    stack, as the C function does), and none otherwise. -/
def lua_tolstring (i : Int) : M (Option String) := fun s =>
  match s.valueAt i with
  | some (.str t) => (.ok (some t), s)
  | some (.num n) =>
    let a := absindex_raw s i
    if 0 < a ∧ a ≤ (s.stack.length : Int) then
      (.ok (some (toString n)),
        { s with stack := s.stack.set ((s.stack.length : Int) - a).toNat (.str (toString n)) })
    else (.fault, s)
  | _ => (.ok none, s)

/-- luamm.cc lines 482-489: state::tostring — throws lua::not_string_error
    when the value has no string representation. -/
def tostring (index : Int) : M String := do
  match ← lua_tolstring index with
  | some t => pure t
  | none => throwHost .notStringErr

/-- luamm.cc line 185: the fixed fallback diagnostic message. -/
def default_msg : String := "Unknown lua exception"

/-- luamm.cc lines 183-193: exception::get_error_msg — tostring(-1), with the
    default message substituted when that throws not_string_error. -/
def get_error_msg : M String := fun s =>
  match tostring (-1) s with
  | (.hostExc .notStringErr, s1) => (.ok default_msg, s1)
  | other => other

/-- luamm.cc lines 195-204: exception::exception(state*) — reads the message
    off the top of the stack, then moves the error value into the
    lua_exception_namespace registry table under a fresh key.  The resulting
    LuaExcObj records the owning handle (by identity), the message and the
    key; L_valid is a copy of the owning handle's liveness flag. -/
def exception_mk : M LuaExcObj := do
  let msg ← get_error_msg
  checkstack 1
  rawgetfield REGISTRYINDEX lua_exception_namespace
  insertM (-2)
  let key ← refM (-2)
  popM 1
  fun s => (.ok ⟨s.handleId, msg, key⟩, s)

/-- luamm.cc lines 217-226: exception::push_lua_error — identity-checked
    re-injection of the captured error value.  The target handle `l` is the
    state the computation runs on (its handleId); the check `l != L` compares
    it with the owning handle recorded in the exception. -/
def push_lua_error (e : LuaExcObj) : M Unit := do
  fun s =>
    if s.handleId ≠ e.L then
      (.hostExc (.runtimeErr "Cannot transfer exceptions between different lua contexts"), s)
    else (.ok (), s)
  checkstack 2
  rawgetfield REGISTRYINDEX lua_exception_namespace
  rawgetiM (-1) e.key
  replaceM (-2)

/- ---------------------------------------------------------------------
   The protected-call primitive.

   lua_pcall itself is the external collaborator: it pops the function and
   `nargs` arguments, runs the function, and either leaves (up to) `nresults`
   results on the stack and returns 0, or restores the stack to its height
   before the call, pushes the single error value, and returns a non-zero
   status.  Two models are given: `pcall_run` actually executes a Lean body
   (used when the callee is one of this file's trampolines), and
   `lua_pcall_oracle` takes the outcome as a parameter (used when the callee
   is arbitrary lua code).
   --------------------------------------------------------------------- -/

/-- Adjust a (top-first) result list to the requested result count:
    missing results become nil, extra results are discarded; MULTRET keeps
    everything. -/
def adjustRes (res : List Value) (n : Int) : List Value :=
  if n = MULTRET then res
  else if (res.length : Int) ≤ n then
    List.replicate (n - res.length).toNat .nil ++ res
  else res.drop (res.length - n.toNat)

/-- lua_error: signals a lua error whose value is the top of the stack
    (a non-local jump caught by the innermost protected call). -/
def luaErrorM : M Nat := fun s =>
  match s.stack with
  | v :: _ => (.luaErr v, s)
  | [] => (.fault, s)

/-- lua_pcall, executing `body` as the called function.  The callee runs on a
    fresh frame holding only its arguments, with the guaranteed LUA_MINSTACK
    free slots.  On a lua error the stack is restored to its height before
    the call and the error value is pushed (the primitive itself always has
    room for that); heap effects made by the callee persist.  A C++ exception
    unwinding out of the callee propagates (the fragile path luamm documents
    next to panic_throw). -/
def pcall_run (nargs : Nat) (nresults : Int) (body : M Nat) : M Nat := fun s =>
  if nargs + 1 ≤ s.stack.length then
    let rest := s.stack.drop (nargs + 1)
    let frame : LuaState :=
      { s with stack := s.stack.take nargs, cap := nargs + MINSTACK, pcalls := s.pcalls + 1 }
    match body frame with
    | (.ok n, s1) =>
      let fin := adjustRes (s1.stack.take n) nresults ++ rest
      (.ok 0, { s1 with stack := fin, cap := max s.cap fin.length })
    | (.luaErr v, s1) =>
      (.ok LUA_ERRRUN, { s1 with stack := v :: rest, cap := max s.cap (rest.length + 1) })
    | (.hostExc e, s1) => (.hostExc e, { s1 with stack := s1.stack ++ rest, cap := s.cap })
    | (.overflow, s1) => (.overflow, s1)
    | (.fault, s1) => (.fault, s1)
  else (.fault, s)

/-- The possible results of lua_pcall on an arbitrary callee: normal return
    with a (top-first) result list, a non-zero status with the error value
    left on top, or a memory allocation failure. -/
inductive PcallOutcome
  | ok (results : List Value)
  | err (r : Nat) (v : Value)
  | errmem
  deriving DecidableEq, Repr

/-- lua_pcall with the callee's behaviour supplied as an oracle. -/
def lua_pcall_oracle (nargs : Nat) (nresults : Int) (po : PcallOutcome) : M Nat := fun s =>
  if nargs + 1 ≤ s.stack.length then
    let rest := s.stack.drop (nargs + 1)
    match po with
    | .ok results =>
      let fin := adjustRes results nresults ++ rest
      (.ok 0, { s with stack := fin, cap := max s.cap fin.length, pcalls := s.pcalls + 1 })
    | .err r v =>
      let fin := v :: rest
      (.ok r, { s with stack := fin, cap := max s.cap fin.length, pcalls := s.pcalls + 1 })
    | .errmem =>
      let fin := Value.str "not enough memory" :: rest
      (.ok LUA_ERRMEM,
        { s with stack := fin, cap := max s.cap fin.length, pcalls := s.pcalls + 1 })
  else (.fault, s)

/-- luamm.cc lines 280-311: the classification state::call performs on the
    status lua_pcall returned.  Status 0 returns normally; LUA_ERRMEM throws
    std::bad_alloc; otherwise, when the top value's metatable is the
    cpp_exception_metatable the wrapped std::exception_ptr is copied out, the
    capture popped, and the original C++ exception rethrown; otherwise
    LUA_ERRERR throws lua::errfunc_error and every other status throws
    lua::exception. -/
def call_classify (r : Nat) : M Unit := do
  if r = 0 then return ()
  if r = LUA_ERRMEM then throwHost .badAlloc
  else
    checkstack 3
    rawgetfield REGISTRYINDEX cpp_exception_metatable
    let hasmt ← getmetatableM (-2)
    let _ ← (if hasmt then do
        let req ← rawequalM (-1) (-2)
        if req then do
          let e ← touserdataExcPtrM (-3)
          popM 3
          (throwHost e : M Unit)
        else popM 2
      else (pure () : M Unit))
    if r = LUA_ERRERR then do
      let ex ← exception_mk
      throwHost (.errfuncErr ex)
    else do
      let ex ← exception_mk
      throwHost (.luaExc ex)

/-- luamm.cc lines 277-311: state::call, with the lua_pcall step abstracted
    (instantiated with `pcall_run` or `lua_pcall_oracle` below). -/
def call_with (pcallStep : M Nat) : M Unit := do
  let r ← pcallStep
  call_classify r

/-- state::call(nargs, nresults, errfunc) on an arbitrary callee; the
    `errfunc` argument is passed through to lua_pcall (handler selection is
    internal to the primitive and folded into the oracle's outcome). -/
def state_call (nargs : Nat) (nresults : Int) (_errfunc : Int) (po : PcallOutcome) : M Unit :=
  call_with (lua_pcall_oracle nargs nresults po)

/-- state::call(nargs, nresults, 0) where the callee is a known trampoline
    executed for real. -/
def call_run (nargs : Nat) (nresults : Int) (body : M Nat) : M Unit :=
  call_with (pcall_run nargs nresults body)

/- ---------------------------------------------------------------------
   The trampolines (luamm.cc anonymous namespace) and the host callbacks.
   --------------------------------------------------------------------- -/

/-- Modelled from the spec: `createuserdata<T>(args...)` lives in the header
    luamm.hh, which is not part of src/.  Per the spec (section 4.4) it
    allocates a fresh interpreter-managed userdata object holding the given
    host payload and pushes it; here for T = std::exception_ptr holding the
    exception currently in flight. -/
def createuserdataExcPtr (e : HostExc) : M Unit := fun s =>
  if s.stack.length < s.cap then
    (.ok (), { s with stack := .userdata s.fresh :: s.stack, udata := (s.fresh, ⟨.excPtr e, none⟩) :: s.udata, fresh := s.fresh + 1 })
  else (.overflow, s)

/-- Modelled from the spec: createuserdata for T = cpp_function (a callback
    record wrapping the host callable, identified by `fnId`). -/
def createuserdataCppFn (fnId : Nat) : M Unit := fun s =>
  if s.stack.length < s.cap then
    (.ok (), { s with stack := .userdata s.fresh :: s.stack, udata := (s.fresh, ⟨.cppFn fnId, none⟩) :: s.udata, fresh := s.fresh + 1 })
  else (.overflow, s)

/-- Behaviour of the wrapped host callable `(*fn)(L)` inside
    closure_trampoline: it either returns a result count normally or throws a
    C++ exception.  Its own stack effects are abstracted (the claims below
    concern the exception paths). -/
inductive FnOutcome
  | ok (n : Nat)
  | throws (e : HostExc)
  deriving DecidableEq, Repr

/-- luamm.cc lines 77-105: closure_trampoline, the entry point of every host
    callback.  Note line 79 calls lua_checkstack(l, 2) and DISCARDS its
    result.  It recovers the owning state from the registry (asserting it is
    a lightuserdata and that it is the state actually running, which is what
    using the recovered pointer as `L` means), invokes the callable, and on
    failure either re-injects a lua::exception via push_lua_error or smuggles
    any other C++ exception through a tagged userdata; both paths end in
    lua_error. -/
def closure_trampoline (fnOut : FnOutcome) : M Nat := do
  let _ ← checkstack_raw 2
  rawgetfield REGISTRYINDEX this_cpp_object
  let _L ← (fun s =>
    match s.stack with
    | .lightuserdata p :: _ => if p = s.handleId then (.ok p, s) else (.fault, s)
    | _ => (.fault, s) : M Nat)
  popM 1
  match fnOut with
  | .ok n => pure n
  | .throws e =>
    match isLuaExc e with
    | some ex => do
      push_lua_error ex
      luaErrorM
    | none => do
      createuserdataExcPtr e
      rawgetfield REGISTRYINDEX cpp_exception_metatable
      setmetatableM (-2)
      luaErrorM

/-- Outcome of a raw lua operation that may invoke metamethods: a produced
    value, or a lua error. -/
inductive OpOutcome
  | val (v : Value)
  | raise (v : Value)
  deriving DecidableEq, Repr

/-- lua_concat(n): pops the top n values and pushes their concatenation (the
    result supplied as oracle, since __concat metamethods run arbitrary
    code); may raise a lua error. -/
def lua_concat_prim (n : Nat) (co : OpOutcome) : M Unit := fun s =>
  if n ≤ s.stack.length then
    match co with
    | .val v => pushM v { s with stack := s.stack.drop n }
    | .raise v => (.luaErr v, s)
  else (.fault, s)

/-- luamm.cc lines 129-133: safe_concat_trampoline. -/
def safe_concat_trampoline (co : OpOutcome) : M Nat := do
  let n ← (fun s => (.ok s.stack.length, s) : M Nat)
  lua_concat_prim n co
  pure 1

/-- Outcome of lua_equal / lua_lessthan (which may invoke __eq/__lt
    metamethods): a boolean, or a lua error. -/
inductive CmpOutcome
  | val (r : Bool)
  | raise (v : Value)
  deriving DecidableEq, Repr

def lua_compare_prim (i1 i2 : Int) (co : CmpOutcome) : M Bool := fun s =>
  if (s.valueAt i1).isSome ∧ (s.valueAt i2).isSome then
    match co with
    | .val r => (.ok r, s)
    | .raise v => (.luaErr v, s)
  else (.fault, s)

/-- luamm.cc lines 135-142: safe_compare_trampoline<compare>. -/
def safe_compare_trampoline (co : CmpOutcome) : M Nat := do
  let r ← lua_compare_prim 1 2 co
  popM 2
  pushM (.num (if r then 1 else 0))
  pure 1

/-- lua_tointeger (0 for values with no integer representation). -/
def lua_tointeger_prim (i : Int) : M Int := fun s =>
  match s.valueAt i with
  | some (.num n) => (.ok n, s)
  | some _ => (.ok 0, s)
  | none => (.fault, s)

/-- assert(isnumber(idx)) as used before reading back a trampoline result. -/
def assertNumM (i : Int) : M Unit := fun s =>
  match s.valueAt i with
  | some (.num _) => (.ok (), s)
  | _ => (.fault, s)

/-- luamm.cc lines 144-151: safe_gc_trampoline; the integer lua_gc returns is
    the oracle `gr`. -/
def safe_gc_trampoline (gr : Int) : M Nat := do
  let _what ← lua_tointeger_prim (-2)
  let _data ← lua_tointeger_prim (-1)
  popM 2
  pushM (.num gr)
  pure 1

/-- lua_gettable(i): t[k] with k popped from the top, result pushed;
    __index metamethods make the result (or a raised error) an oracle. -/
def lua_gettable_prim (i : Int) (go : OpOutcome) : M Unit := fun s =>
  if (s.valueAt i).isSome then
    match s.stack with
    | _k :: rest =>
      match go with
      | .val v => (.ok (), { s with stack := v :: rest })
      | .raise v => (.luaErr v, s)
    | [] => (.fault, s)
  else (.fault, s)

/-- Outcome of a raw lua operation performed for effect only. -/
inductive SetOutcome
  | done
  | raise (v : Value)
  deriving DecidableEq, Repr

/-- lua_settable(i): t[k] = v with v on top and k below, both popped;
    __newindex metamethods make failure possible. -/
def lua_settable_prim (i : Int) (go : SetOutcome) : M Unit := fun s =>
  if (s.valueAt i).isSome then
    match s.stack with
    | _v :: _k :: rest =>
      match go with
      | .done => (.ok (), { s with stack := rest })
      | .raise v => (.luaErr v, s)
    | _ => (.fault, s)
  else (.fault, s)

/-- luamm.cc lines 153-158: safe_misc_trampoline<lua_gettable, 1>. -/
def safe_gettable_trampoline (go : OpOutcome) : M Nat := do
  lua_gettable_prim 1 go
  pure 1

/-- luamm.cc lines 153-158: safe_misc_trampoline<lua_settable, 0>. -/
def safe_settable_trampoline (go : SetOutcome) : M Nat := do
  lua_settable_prim 1 go
  pure 0

/-- Outcome of lua_next: the next key/value pair, or end of table. -/
inductive NextOutcome
  | pair (k v : Value)
  | done
  deriving DecidableEq, Repr

/-- lua_next(i): pops a key, pushes the next key and its value (net +1) or
    pushes nothing at the end of the table. -/
def lua_next_prim (i : Int) (no : NextOutcome) : M Int := fun s =>
  if (s.valueAt i).isSome then
    match s.stack with
    | _key :: rest =>
      match no with
      | .pair k v =>
        if rest.length + 2 ≤ s.cap then (.ok 1, { s with stack := v :: k :: rest })
        else (.overflow, s)
      | .done => (.ok 0, { s with stack := rest })
    | [] => (.fault, s)
  else (.fault, s)

/-- luamm.cc lines 160-166: safe_next_trampoline.  Note line 163 calls
    lua_checkstack(l, 1) and DISCARDS its result before pushing. -/
def safe_next_trampoline (no : NextOutcome) : M Nat := do
  let r ← lua_next_prim 1 no
  let _ ← checkstack_raw 1
  pushM (.num r)
  pure (if r ≠ 0 then 3 else 1)

/- ---------------------------------------------------------------------
   The protected wrapper operations (lua::state members, luamm.cc).
   --------------------------------------------------------------------- -/

/-- luamm.cc lines 319-326: state::concat(n). -/
def concat (n : Nat) (co : OpOutcome) : M Unit := do
  checkstack 1
  pushM (.cfun .concatTramp)
  insertM (-(n : Int) - 1)
  call_run n 1 (safe_concat_trampoline co)

/-- luamm.cc lines 442-461: state::safe_compare(trampoline, index1, index2).
    Returns false outright when either index is invalid; otherwise runs the
    given comparison trampoline under the protected-call primitive. -/
def safe_compare (tramp : CFunId) (co : CmpOutcome) (index1 index2 : Int) : M Bool := do
  let invalid ← (fun s => (.ok (isnone_raw s index1 || isnone_raw s index2), s) : M Bool)
  if invalid then pure false
  else do
    let i1 ← absindexM index1
    let i2 ← absindexM index2
    checkstack 3
    pushM (.cfun tramp)
    pushvalueM i1
    pushvalueM i2
    call_run 2 1 (safe_compare_trampoline co)
    assertNumM (-1)
    let r ← lua_tointeger_prim (-1)
    popM 1
    pure (r ≠ 0)

/-- luamm.cc lines 328-335: state::equal — raw equality short-circuit, then
    the protected comparison. -/
def equal (index1 index2 : Int) (co : CmpOutcome) : M Bool := do
  let raweq ← rawequalM index1 index2
  if raweq then pure true
  else safe_compare .cmpEqualTramp co index1 index2

/-- luamm.cc lines 368-371: state::lessthan. -/
def lessthan (index1 index2 : Int) (co : CmpOutcome) : M Bool :=
  safe_compare .cmpLessTramp co index1 index2

/-- luamm.cc lines 337-348: state::gc(what, data); `gr` is the integer the
    raw lua_gc call returns inside the trampoline. -/
def gc (what data : Int) (gr : Int) : M Int := do
  checkstack 3
  pushM (.cfun .gcTramp)
  pushM (.num what)
  pushM (.num data)
  call_run 2 1 (safe_gc_trampoline gr)
  assertNumM (-1)
  let r ← lua_tointeger_prim (-1)
  popM 1
  pure r

/-- luamm.cc lines 358-366: state::gettable(index). -/
def gettable (index : Int) (go : OpOutcome) : M Unit := do
  checkstack 2
  pushvalueM index
  insertM (-2)
  pushM (.cfun .gettableTramp)
  insertM (-3)
  call_run 2 1 (safe_gettable_trampoline go)

/-- luamm.cc lines 350-356: state::getfield(index, k). -/
def getfield (index : Int) (k : String) (go : OpOutcome) : M Unit := do
  checkstack 1
  let index ← absindexM index
  pushM (.str k)
  gettable index go

/-- luamm.cc lines 472-480: state::settable(index). -/
def settable (index : Int) (go : SetOutcome) : M Unit := do
  checkstack 2
  pushvalueM index
  insertM (-3)
  pushM (.cfun .settableTramp)
  insertM (-4)
  call_run 3 0 (safe_settable_trampoline go)

/-- luamm.cc lines 463-470: state::setfield(index, k). -/
def setfield (index : Int) (k : String) (go : SetOutcome) : M Unit := do
  checkstack 1
  let index ← absindexM index
  pushM (.str k)
  insertM (-2)
  settable index go

/-- luamm.cc lines 408-422: state::next(index). -/
def next (index : Int) (no : NextOutcome) : M Bool := do
  checkstack 2
  pushvalueM index
  insertM (-2)
  pushM (.cfun .nextTramp)
  insertM (-3)
  call_run 2 MULTRET (safe_next_trampoline no)
  assertNumM (-1)
  let r ← lua_tointeger_prim (-1)
  popM 1
  pure (r ≠ 0)

/-- lua_pushcclosure(f, n): pops the n upvalues and pushes the closure. -/
def pushcclosureM (f : CFunId) (n : Nat) : M Unit := fun s =>
  if n ≤ s.stack.length then pushM (.cfun f) { s with stack := s.stack.drop n }
  else (.fault, s)

/-- luamm.cc lines 424-434: state::pushclosure(fn, n) — wraps the host
    callable in a finalized userdata and installs closure_trampoline with the
    record as the last upvalue. -/
def pushclosure (fnId : Nat) (n : Nat) : M Unit := do
  checkstack 2
  createuserdataCppFn fnId
  rawgetfield REGISTRYINDEX cpp_function_metatable
  setmetatableM (-2)
  insertM (-(n : Int) - 1)
  pushcclosureM .closureTramp (n + 1)

/- ---------------------------------------------------------------------
   Chunk compilation (luamm.cc lines 373-406).
   --------------------------------------------------------------------- -/

/-- The complete set of statuses luaL_loadfile can return (Lua 5.1):
    0, LUA_ERRSYNTAX, LUA_ERRFILE, LUA_ERRMEM. -/
inductive LoadfileStatus
  | ok
  | errsyn
  | errfile
  | errmem
  deriving DecidableEq, Repr

/-- The complete set of statuses lua_load can return (Lua 5.1):
    0, LUA_ERRSYNTAX, LUA_ERRMEM. -/
inductive LoadStatus
  | ok
  | errsyn
  | errmem
  deriving DecidableEq, Repr

/-- luaL_loadfile: internally protected; pushes the compiled chunk on
    success, or an error message on failure (`pushed` is whichever value that
    is).  The primitive manages its own stack space. -/
def luaL_loadfile_prim (pushed : Value) : M Unit := fun s =>
  let fin := pushed :: s.stack
  (.ok (), { s with stack := fin, cap := max s.cap fin.length })

/-- luamm.cc lines 373-388: state::loadfile — classifies luaL_loadfile's
    status; the `default: assert(0)` branch of the source switch is
    unreachable because LoadfileStatus enumerates the full contract. -/
def loadfile (st : LoadfileStatus) (pushed : Value) : M Unit := do
  luaL_loadfile_prim pushed
  match st with
  | .ok => pure ()
  | .errsyn => do
    let ex ← exception_mk
    throwHost (.syntaxErr ex)
  | .errfile => do
    let ex ← exception_mk
    throwHost (.fileErr ex)
  | .errmem => throwHost .badAlloc

/-- luamm.cc lines 390-406: state::loadstring — lua_load over the in-memory
    buffer (reader_data/string_reader are the feeding mechanism internal to
    the primitive); same classification without the file case. -/
def loadstring (st : LoadStatus) (pushed : Value) : M Unit := do
  luaL_loadfile_prim pushed
  match st with
  | .ok => pure ()
  | .errsyn => do
    let ex ← exception_mk
    throwHost (.syntaxErr ex)
  | .errmem => throwHost .badAlloc

/- ---------------------------------------------------------------------
   Handle construction (luamm.cc lines 228-275).
   --------------------------------------------------------------------- -/

/-- lua_atpanic: installs the panic handler (cannot fail). -/
def lua_atpanicM (f : CFunId) : M Unit := fun s => (.ok (), { s with panicf := some f })

/-- luaL_newmetatable(name): pushes registry[name] if present, else creates a
    fresh table, stores it in the registry under `name`, and pushes it. -/
def newmetatableM (name : String) : M Unit := fun s =>
  match lookupStr s.registryStr name with
  | some v => pushM v s
  | none =>
    let tid := s.fresh
    pushM (.table tid)
      { s with tables := (tid, ({} : TableObj)) :: s.tables, fresh := s.fresh + 1,
               registryStr := (name, .table tid) :: s.registryStr }

/-- luaL_openlibs: loads the standard libraries; on success strings receive
    their shared metatable.  Failure inside library loading (allocation, or a
    lua error surfacing through the panic path) is the oracle `r`. -/
def luaL_openlibs_prim (r : Option HostExc) : M Unit := fun s =>
  match r with
  | none =>
    let mid := s.fresh
    (.ok (), { s with tables := (mid, ({} : TableObj)) :: s.tables, fresh := s.fresh + 1,
                      stringMeta := some mid })
  | some e => (.hostExc e, s)

/-- luamm.cc lines 236-268: the body of the try block of state::state —
    panic handler, self pointer, the two private metatables, the exception
    namespace table, and the standard libraries. -/
def state_setup (hid : Nat) (openlibs : Option HostExc) : M Unit := do
  lua_atpanicM .panicThrow
  checkstack 2
  pushM (.lightuserdata hid)
  rawsetfield REGISTRYINDEX this_cpp_object
  newmetatableM cpp_exception_metatable
  pushM (.cfun .excToString)
  rawsetfield (-2) "__tostring"
  pushM (.boolean false)
  rawsetfield (-2) "__metatable"
  pushM (.cfun .destructorExcPtr)
  rawsetfield (-2) "__gc"
  popM 1
  newmetatableM cpp_function_metatable
  pushM (.boolean false)
  rawsetfield (-2) "__metatable"
  pushM (.cfun .destructorCppFn)
  rawsetfield (-2) "__gc"
  popM 1
  newtableM
  rawsetfield REGISTRYINDEX lua_exception_namespace
  luaL_openlibs_prim openlibs

/-- Observable result of running the state constructor: the exception that
    propagated (if any), the final contents of the shared liveness flag,
    whether lua_close ran, and the constructed interpreter state on
    success. -/
structure CtorResult where
  outcome : Option HostExc := none
  flag : Bool := true
  closed : Bool := false
  final : Option LuaState := none
  deriving DecidableEq, Repr

/-- luamm.cc lines 228-275: state::state.  `allocOk` is whether luaL_newstate
    could allocate the interpreter instance (NULL return otherwise); a fresh
    instance starts with the guaranteed LUA_MINSTACK slots.  Any C++
    exception thrown during setup is caught, the liveness flag is set false,
    lua_close destroys the instance, and the exception is rethrown.  (The
    overflow/fault outcomes are memory-unsafe executions that cannot arise
    from this entry point; they yield the empty result.) -/
def state_mk (hid : Nat) (allocOk : Bool) (openlibs : Option HostExc) : CtorResult :=
  if allocOk then
    let s0 : LuaState := { handleId := hid, cap := MINSTACK }
    match state_setup hid openlibs s0 with
    | (.ok _, s1) => { outcome := none, flag := s1.validFlag, closed := false, final := some s1 }
    | (.hostExc e, _) => { outcome := some e, flag := false, closed := true, final := none }
    | (_, _) => { outcome := none, flag := true, closed := false, final := none }
  else { outcome := some .badAlloc, flag := true, closed := false, final := none }

/-- The canonical freshly constructed interpreter state of handle `hid`
    (successful construction). -/
def init_state (hid : Nat) : LuaState :=
  ((state_mk hid true none).final).getD { handleId := hid }

/- ---------------------------------------------------------------------
   Auxiliary definitions used by the theorems below.
   --------------------------------------------------------------------- -/

/-- Whether an inspected slot has no string representation (not a string,
    not a number; a non-valid index also yields no representation). -/
def has_no_string_rep : Option Value → Bool
  | some (.str _) => false
  | some (.num _) => false
  | _ => true

/-- The error value as it stands when exception construction moves it off
    the stack: reading the message via lua_tolstring converts a number to its
    string representation in place before the move (the C function mutates
    the stack slot); every other value is moved unchanged. -/
def captured : Value → Value
  | .num n => .str (toString n)
  | v => v

/-- A state about to classify a failing protected call whose error value is
    a host-exception capture: userdata 9 holds a std::exception_ptr to a
    custom exception and is tagged with the cpp_exception_metatable
    (table 0 of the fresh handle). -/
def capture_udata : List (Nat × UDataObj) :=
  [(9, ⟨.excPtr (.hostOther "custom_error" 5), some 0⟩)]

def capture_input : LuaState :=
  { init_state 7 with stack := [Value.nil, Value.nil], udata := capture_udata }


/-- `free k s`: the stack has verified capacity for `k` more pushes. -/
def free (k : Nat) (s : LuaState) : Prop := s.stack.length + k ≤ s.cap

/-- A Hoare triple for the embedding: from states satisfying `P`, the
    computation never pushes past the allocated capacity, and on normal
    return the postcondition holds.  (Abnormal outcomes — C++ exceptions,
    lua errors, assertion faults — terminate the computation and need no
    postcondition.) -/
def triple {α : Type} (P : LuaState → Prop) (m : M α) (Q : α → LuaState → Prop) : Prop :=
  ∀ s, P s → (m s).1 ≠ .overflow ∧ ∀ a s1, m s = (.ok a, s1) → Q a s1

/- ---------------------------------------------------------------------
   Theorems.
   --------------------------------------------------------------------- -/


attribute [simp] lookupStr lookupInt lookupNat setNat LuaState.gettop
  absindexM checkstack_raw pushM popM pushvalueM insertM replaceM rawgetM
  rawgetiM rawsetM rawequalM getmetatableM setmetatableM
  touserdataExcPtrM newtableM refM rawgetfield rawsetfield checkstack lua_tolstring tostring
  get_error_msg exception_mk push_lua_error adjustRes luaErrorM pcall_run lua_pcall_oracle
  call_classify call_with state_call call_run createuserdataExcPtr createuserdataCppFn
  closure_trampoline lua_concat_prim safe_concat_trampoline lua_compare_prim
  safe_compare_trampoline lua_tointeger_prim assertNumM safe_gc_trampoline lua_gettable_prim
  lua_settable_prim safe_gettable_trampoline safe_settable_trampoline lua_next_prim
  safe_next_trampoline concat safe_compare equal lessthan gc gettable getfield settable
  setfield next pushcclosureM pushclosure luaL_loadfile_prim loadfile loadstring
  lua_atpanicM newmetatableM luaL_openlibs_prim
  REGISTRYINDEX MULTRET LUA_ERRRUN LUA_ERRSYNTAX LUA_ERRMEM LUA_ERRERR MINSTACK
  M.pure M.bind default_msg isLuaExc cpp_exception_metatable cpp_function_metatable
  lua_exception_namespace this_cpp_object has_no_string_rep faultM

/-- The canonical freshly constructed state, computed once: registry self
    pointer, the two private metatables, the exception namespace table, the
    string metatable installed by the libraries. -/
@[simp] theorem init_state_eq (hid : Nat) :
    init_state hid =
      { handleId := hid, stack := [], cap := 20, maxcap := 1000,
        registryStr := [(lua_exception_namespace, .table 2),
                        (cpp_function_metatable, .table 1),
                        (cpp_exception_metatable, .table 0),
                        (this_cpp_object, .lightuserdata hid)],
        tables := [(3, {}), (2, {}),
                   (1, { strMap := [("__gc", .cfun .destructorCppFn),
                                    ("__metatable", .boolean false)] }),
                   (0, { strMap := [("__gc", .cfun .destructorExcPtr),
                                    ("__metatable", .boolean false),
                                    ("__tostring", .cfun .excToString)] })],
        udata := [], stringMeta := some 3, fresh := 4, validFlag := true,
        panicf := some .panicThrow, pcalls := 0 } := by
  simp +decide [init_state, state_mk, state_setup, LuaState.valueAt, absindex_raw]

/-- C3: re-raising an Exception Object into a handle other than the one that
    produced it raises the cross-context-transfer error, deterministically on
    every such call, and leaves the target state (in particular its stack)
    completely unchanged. -/
theorem push_lua_error_cross_context (s : LuaState) (ex : LuaExcObj)
    (h : s.handleId ≠ ex.L) :
    push_lua_error ex s =
      (.hostExc (.runtimeErr "Cannot transfer exceptions between different lua contexts"), s) := by
  simp [push_lua_error, h]

/-- Witness for C3 at a concrete input: an exception owned by handle 7
    re-raised into handle 8. -/
theorem push_lua_error_cross_context_witness :
    (init_state 8).handleId ≠ (⟨7, "boom", 1⟩ : LuaExcObj).L ∧
    push_lua_error ⟨7, "boom", 1⟩ (init_state 8) =
      (.hostExc (.runtimeErr "Cannot transfer exceptions between different lua contexts"),
        init_state 8) :=
  ⟨by decide, push_lua_error_cross_context (init_state 8) ⟨7, "boom", 1⟩ (by decide)⟩

/-- C8: requesting a string view of a value that is neither a string nor a
    number raises lua::not_string_error and has no side effects at all — the
    returned state is exactly the input state. -/
theorem tostring_not_string (s : LuaState) (i : Int)
    (h : has_no_string_rep (s.valueAt i) = true) :
    tostring i s = (.hostExc .notStringErr, s) := by
  cases hv : s.valueAt i with
  | none => simp [tostring, lua_tolstring, hv]
  | some v =>
    cases v <;> simp_all [tostring, lua_tolstring, hv, has_no_string_rep]

/-- Witness for C8 at a concrete input: a boolean on top of a fresh state. -/
theorem tostring_not_string_witness :
    has_no_string_rep (({ init_state 7 with stack := [Value.boolean true] }).valueAt 1) = true ∧
    tostring 1 { init_state 7 with stack := [Value.boolean true] } =
      (.hostExc .notStringErr, { init_state 7 with stack := [Value.boolean true] }) :=
  ⟨by decide, tostring_not_string { init_state 7 with stack := [Value.boolean true] } 1 (by decide)⟩

/-- C10: when either index refers to no value, equal and lessthan both return
    false with the state unchanged — no protected call (the pcall counter is
    part of the state), no exception. -/
theorem compare_invalid_index (s : LuaState) (i1 i2 : Int) (co : CmpOutcome)
    (h : s.valueAt i1 = none ∨ s.valueAt i2 = none) :
    equal i1 i2 co s = (.ok false, s) ∧ lessthan i1 i2 co s = (.ok false, s) := by
  have hr : rawequal_raw s i1 i2 = false := by
    rcases h with h1 | h2
    · simp [rawequal_raw, h1]
    · cases hv : s.valueAt i1 <;> simp [rawequal_raw, hv, h2]
  have hn : (isnone_raw s i1 || isnone_raw s i2) = true := by
    rcases h with h1 | h2
    · simp [isnone_raw, h1]
    · simp [isnone_raw, h2]
  constructor
  · simp [equal, rawequalM, hr, safe_compare, hn]
  · simp [lessthan, safe_compare, hn]

/-- Witness for C10 at a concrete input: comparing index 1 against the
    invalid index 5 on a two-value stack. -/
theorem compare_invalid_index_witness :
    (({ init_state 7 with stack := [Value.num 1, Value.num 2] }).valueAt 1 = none ∨
      ({ init_state 7 with stack := [Value.num 1, Value.num 2] }).valueAt 5 = none) ∧
    equal 1 5 (.val true) { init_state 7 with stack := [Value.num 1, Value.num 2] } =
      (.ok false, { init_state 7 with stack := [Value.num 1, Value.num 2] }) ∧
    lessthan 1 5 (.val true) { init_state 7 with stack := [Value.num 1, Value.num 2] } =
      (.ok false, { init_state 7 with stack := [Value.num 1, Value.num 2] }) :=
  ⟨Or.inr (by decide),
    compare_invalid_index { init_state 7 with stack := [Value.num 1, Value.num 2] } 1 5
      (.val true) (Or.inr (by decide))⟩

/-- C7: loadfile classifies the protected compilation entry point's complete
    outcome set as success / syntax_error / file_error (a distinct type) /
    bad_alloc, and loadstring as success / syntax_error / bad_alloc; the
    status inductives enumerate every status the primitives can return, so
    exhaustiveness of the classification is part of the statement.  `chunk`
    is the compiled chunk the primitive pushes on success, `msg` the error
    message it pushes on failure. -/
theorem load_classification (hid : Nat) (chunk : Value) (msg : String) :
    (loadfile .ok chunk (init_state hid)).1 = .ok () ∧
    (∃ e, (loadfile .errsyn (.str msg) (init_state hid)).1 = .hostExc (.syntaxErr e)) ∧
    (∃ e, (loadfile .errfile (.str msg) (init_state hid)).1 = .hostExc (.fileErr e)) ∧
    (loadfile .errmem (.str msg) (init_state hid)).1 = .hostExc .badAlloc ∧
    (loadstring .ok chunk (init_state hid)).1 = .ok () ∧
    (∃ e, (loadstring .errsyn (.str msg) (init_state hid)).1 = .hostExc (.syntaxErr e)) ∧
    (loadstring .errmem (.str msg) (init_state hid)).1 = .hostExc .badAlloc ∧
    (∀ e1 e2 : LuaExcObj, HostExc.fileErr e1 ≠ HostExc.syntaxErr e2) := by
  refine ⟨?_, ?_, ?_, ?_, ?_, ?_, ?_, fun e1 e2 h => by cases h⟩ <;>
    simp +decide [LuaState.valueAt, absindex_raw]

/-- C6: handle construction raises std::bad_alloc when the interpreter
    instance itself cannot be allocated, and a failure during the setup path
    leaves the liveness flag false and the interpreter instance destroyed
    (lua_close) before the original exception propagates. -/
theorem state_ctor_failure (hid : Nat) (r : Option HostExc) (e : HostExc) :
    state_mk hid false r =
      { outcome := some .badAlloc, flag := true, closed := false, final := none } ∧
    (r = some e → state_mk hid true r =
      { outcome := some e, flag := false, closed := true, final := none }) := by
  refine ⟨by simp [state_mk], fun h => ?_⟩
  subst h
  simp +decide [state_mk, state_setup, LuaState.valueAt, absindex_raw]

/-- Witness for C6 at a concrete input: library loading fails with
    std::bad_alloc during setup. -/
theorem state_ctor_failure_witness :
    state_mk 7 false (some .badAlloc) =
      { outcome := some .badAlloc, flag := true, closed := false, final := none } ∧
    ((some .badAlloc : Option HostExc) = some .badAlloc → state_mk 7 true (some .badAlloc) =
      { outcome := some .badAlloc, flag := false, closed := true, final := none }) :=
  state_ctor_failure 7 (some .badAlloc) .badAlloc


/-- C4: an Exception Object captured from a failing protected call, re-raised
    into the same handle, leaves on top of that handle's stack exactly the
    value construction stored in the registry slot: the value stored under
    the recorded key (in the exception namespace table, id 2 of the fresh
    handle) is fetched back unchanged. -/
theorem push_lua_error_roundtrip (v : Value) :
    ∃ ex s1 s2, exception_mk { init_state 7 with stack := [v] } = (.ok ex, s1) ∧
      push_lua_error ex s1 = (.ok (), s2) ∧
      s2.stack = captured v :: s1.stack ∧ ex.L = 7 ∧
      (v = .nil ∨ ∃ t, lookupNat s1.tables 2 = some t ∧
        lookupInt t.intMap ex.key = some (captured v)) := by
  cases v <;> first
    | exact ⟨_, _, _, rfl, rfl, rfl, rfl, Or.inl rfl⟩
    | exact ⟨_, _, _, rfl, rfl, rfl, rfl, Or.inr ⟨_, rfl, rfl⟩⟩

/-- C1: a host exception of any type other than the bridge's own exception
    class, thrown by a registered callback running inside a protected call,
    is re-raised by state::call at the host call site as the very same
    exception object (HostExc equality is object identity in this model, so
    catching by type succeeds), and the smuggling capture is consumed: the
    stack is left empty. -/
theorem callback_exception_identity (e : HostExc) (h : isLuaExc e = none) :
    (call_run 0 0 (closure_trampoline (.throws e))
        ((pushclosure 5 0 (init_state 7)).2)).1 = .hostExc e ∧
    (call_run 0 0 (closure_trampoline (.throws e))
        ((pushclosure 5 0 (init_state 7)).2)).2.stack = [] := by
  cases e
  case luaExc ex => exact absurd h (by simp [isLuaExc])
  case errfuncErr ex => exact absurd h (by simp [isLuaExc])
  case syntaxErr ex => exact absurd h (by simp [isLuaExc])
  case fileErr ex => exact absurd h (by simp [isLuaExc])
  all_goals exact ⟨rfl, rfl⟩

/-- Witness for C1 at a concrete input: a custom exception type carrying a
    payload code, as in the division-by-zero scenario of the spec. -/
theorem callback_exception_identity_witness :
    isLuaExc (.hostOther "division_by_zero_error" 42) = none ∧
    ((call_run 0 0 (closure_trampoline (.throws (.hostOther "division_by_zero_error" 42)))
        ((pushclosure 5 0 (init_state 7)).2)).1 =
      .hostExc (.hostOther "division_by_zero_error" 42) ∧
    (call_run 0 0 (closure_trampoline (.throws (.hostOther "division_by_zero_error" 42)))
        ((pushclosure 5 0 (init_state 7)).2)).2.stack = []) :=
  ⟨by decide, callback_exception_identity (.hostOther "division_by_zero_error" 42) (by decide)⟩


/-- C2: state::call's status classification, evaluated at concrete inputs on
    a fresh handle with a function and one argument on the stack.  The first
    four conjuncts confirm: status 0 returns normally; LUA_ERRMEM raises
    std::bad_alloc; a host-exception capture on top is unwrapped, discarded,
    and the original exception rethrown by identity; LUA_ERRERR (top not a
    capture) raises errfunc_error.  The last three conjuncts exhibit the bug:
    for an error value WITHOUT a metatable (the number 42), the
    cpp_exception_metatable table pushed by the lookup is never popped, so
    the fresh Exception Object wraps that table (registry slot 1 of the
    exception namespace holds `table 0`, message falls back to the default)
    instead of the top-of-stack error value, which is left behind on the
    stack.  (String error values — the common case — take the correct path
    only because strings carry the string-library metatable.) -/
theorem call_classification_and_wrap_bug :
    (state_call 1 0 0 (.ok [])
        { init_state 7 with stack := [Value.nil, Value.nil] }).1 = .ok () ∧
    (state_call 1 0 0 .errmem
        { init_state 7 with stack := [Value.nil, Value.nil] }).1 = .hostExc .badAlloc ∧
    ((state_call 1 0 0 (.err LUA_ERRRUN (.userdata 9)) capture_input).1 =
      .hostExc (.hostOther "custom_error" 5)) ∧
    ((state_call 1 0 0 (.err LUA_ERRERR (.str "handler failed"))
        { init_state 7 with stack := [Value.nil, Value.nil] }).1 =
      .hostExc (.errfuncErr ⟨7, "handler failed", 1⟩)) ∧
    ((state_call 1 0 0 (.err LUA_ERRRUN (.str "boom"))
        { init_state 7 with stack := [Value.nil, Value.nil] }).1 =
      .hostExc (.luaExc ⟨7, "boom", 1⟩)) ∧
    ((state_call 1 0 0 (.err LUA_ERRRUN (.num 42))
        { init_state 7 with stack := [Value.nil, Value.nil] }).1 =
      .hostExc (.luaExc ⟨7, default_msg, 1⟩)) ∧
    (lookupNat (state_call 1 0 0 (.err LUA_ERRRUN (.num 42))
        { init_state 7 with stack := [Value.nil, Value.nil] }).2.tables 2 =
      some { strMap := [], intMap := [(1, .table 0)], nextRef := 2 }) ∧
    ((state_call 1 0 0 (.err LUA_ERRRUN (.num 42))
        { init_state 7 with stack := [Value.nil, Value.nil] }).2.stack = [.num 42]) := by
  refine ⟨?_, ?_, ?_, ?_, ?_, ?_, ?_, ?_⟩ <;> decide

/-- C9: (1) for every state and every pair of indices, raw equality
    short-circuits — equal returns true with the state (including the
    protected-call counter) completely untouched; (2) when the values differ
    (raw-equal false, both indices valid), equal routes the comparison
    through the protected trampoline inside exactly one protected call and
    returns the comparison's verdict. -/
theorem equal_shortcircuit :
    (∀ (s : LuaState) (i1 i2 : Int) (co : CmpOutcome),
      rawequal_raw s i1 i2 = true → equal i1 i2 co s = (.ok true, s)) ∧
    (∀ (v1 v2 : Value) (b : Bool), v1 ≠ v2 →
      (equal 1 2 (.val b) { init_state 7 with stack := [v2, v1] }).1 = .ok b ∧
      (equal 1 2 (.val b) { init_state 7 with stack := [v2, v1] }).2.pcalls = 1) := by
  constructor
  · intro s i1 i2 co h
    simp [h]
  · intro v1 v2 b hne
    cases b <;> constructor <;>
      simp +decide [rawequal_raw, hne, LuaState.valueAt, absindex_raw, isnone_raw]

/-- Witness for C9 at concrete inputs: two copies of the same number
    short-circuit; the numbers 1 and 2 go through the protected call. -/
theorem equal_shortcircuit_witness :
    equal 1 2 (.val false) { init_state 7 with stack := [Value.num 3, Value.num 3] } =
      (.ok true, { init_state 7 with stack := [Value.num 3, Value.num 3] }) ∧
    (equal 1 2 (.val false) { init_state 7 with stack := [Value.num 2, Value.num 1] }).1 =
      .ok false ∧
    (equal 1 2 (.val false) { init_state 7 with stack := [Value.num 2, Value.num 1] }).2.pcalls
      = 1 :=
  ⟨equal_shortcircuit.1 { init_state 7 with stack := [Value.num 3, Value.num 3] } 1 2
      (.val false) (by decide),
    equal_shortcircuit.2 (Value.num 1) (Value.num 2) false (by decide)⟩


/- ---------------------------------------------------------------------
   C5: the capacity-check discipline, via a small Hoare-triple calculus
   over the effect monad.
   --------------------------------------------------------------------- -/

theorem free_mono {k j : Nat} {s : LuaState} (h : k ≤ j) (hf : free j s) : free k s := by
  unfold free at *
  omega

theorem triple_conseq {α : Type} {P P' : LuaState → Prop} {Q Q' : α → LuaState → Prop}
    {m : M α} (h : triple P' m Q') (hP : ∀ s, P s → P' s)
    (hQ : ∀ a s, Q' a s → Q a s) : triple P m Q := by
  intro s hs
  obtain ⟨h1, h2⟩ := h s (hP s hs)
  exact ⟨h1, fun a s1 hm => hQ a s1 (h2 a s1 hm)⟩

theorem triple_bind {α β : Type} {P : LuaState → Prop} {Q : α → LuaState → Prop}
    {R : β → LuaState → Prop} {m : M α} {f : α → M β}
    (h1 : triple P m Q) (h2 : ∀ a, triple (Q a) (f a) R) :
    triple P (m >>= f) R := by
  intro s hP
  obtain ⟨hov, hok⟩ := h1 s hP
  have hb : (m >>= f) s = match m s with
      | (.ok a, s1) => f a s1
      | (.hostExc e, s1) => (.hostExc e, s1)
      | (.luaErr v, s1) => (.luaErr v, s1)
      | (.overflow, s1) => (.overflow, s1)
      | (.fault, s1) => (.fault, s1) := rfl
  rw [hb]
  cases hm : m s with
  | mk o s1 =>
    cases o with
    | ok a =>
      have hQ := hok a s1 hm
      exact h2 a s1 hQ
    | hostExc e => exact ⟨by simp, by intro a s2 h; cases h⟩
    | luaErr v => exact ⟨by simp, by intro a s2 h; cases h⟩
    | overflow => exact absurd (by rw [hm]) hov
    | fault => exact ⟨by simp, by intro a s2 h; cases h⟩

theorem triple_pure {α : Type} {P : LuaState → Prop} {Q : α → LuaState → Prop} (a : α)
    (h : ∀ s, P s → Q a s) : triple P (Pure.pure a) Q := by
  intro s hs
  exact ⟨by simp, fun b s1 hb => by
    simp only [M_pure_eq] at hb
    cases hb
    exact h s hs⟩

theorem triple_throwHost {α : Type} {P : LuaState → Prop} {Q : α → LuaState → Prop}
    (e : HostExc) : triple P (throwHost e) Q := by
  intro s hs
  exact ⟨by simp, fun a s1 hb => by cases hb⟩

theorem triple_ite {α : Type} {P : LuaState → Prop} {Q : α → LuaState → Prop}
    (c : Prop) [Decidable c] {m1 m2 : M α}
    (h1 : c → triple P m1 Q) (h2 : ¬c → triple P m2 Q) :
    triple P (if c then m1 else m2) Q := by
  by_cases hc : c
  · simpa [hc] using h1 hc
  · simpa [hc] using h2 hc

/-- Computations that never push and never change the state on success. -/
theorem triple_of_pres {α : Type} {P : LuaState → Prop} {m : M α}
    (h : ∀ s, (m s).1 ≠ .overflow ∧ ∀ a s1, m s = (.ok a, s1) → s1 = s) :
    triple P m (fun _ => P) := by
  intro s hs
  obtain ⟨h1, h2⟩ := h s
  exact ⟨h1, fun a s1 hm => by rw [h2 a s1 hm]; exact hs⟩

theorem triple_get {α : Type} {P : LuaState → Prop} (g : LuaState → α) :
    triple P (fun s => (.ok (g s), s)) (fun _ => P) :=
  triple_of_pres (fun s => ⟨by simp, fun a s1 h => by cases h; rfl⟩)

theorem triple_pushM {k : Nat} (v : Value) :
    triple (fun s => free k s ∧ free 1 s) (pushM v) (fun _ => free (k - 1)) := by
  intro s hs
  obtain ⟨hk, h1⟩ := hs
  unfold free at hk h1
  have hlt : s.stack.length < s.cap := by omega
  unfold pushM
  simp only [if_pos hlt]
  refine ⟨by simp, fun a s1 hm => ?_⟩
  cases hm
  simp only [free, List.length_cons]
  omega

theorem triple_pushM' {k : Nat} (v : Value) :
    triple (free (k + 1)) (pushM v) (fun _ => free k) := by
  refine triple_conseq (triple_pushM (k := k + 1) v) (fun s hs => ⟨hs, free_mono (by omega) hs⟩)
    (fun a s h => ?_)
  simpa using h

theorem checkstack_eval (n : Nat) (s : LuaState) :
    checkstack n s = if s.stack.length + n ≤ s.cap then (.ok (), s)
      else if s.stack.length + n ≤ s.maxcap then
        (.ok (), { s with cap := s.stack.length + n })
      else (.hostExc .badAlloc, s) := by
  by_cases h1 : s.stack.length + n ≤ s.cap <;>
    by_cases h2 : s.stack.length + n ≤ s.maxcap <;>
    simp [h1, h2]

theorem triple_checkstack (n : Nat) :
    triple (fun _ => True) (checkstack n) (fun _ => free n) := by
  intro s _
  rw [checkstack_eval]
  split_ifs with h1 h2
  · exact ⟨by simp, fun a s1 hm => by cases hm; exact h1⟩
  · exact ⟨by simp, fun a s1 hm => by cases hm; simp [free]⟩
  · exact ⟨by simp, fun a s1 hm => by cases hm⟩

theorem triple_checkstack_raw {k : Nat} (n : Nat) :
    triple (free k) (checkstack_raw n) (fun _ => free k) := by
  intro s hs
  unfold checkstack_raw
  split_ifs with h1 h2
  · exact ⟨by simp, fun a s1 hm => by cases hm; exact hs⟩
  · refine ⟨by simp, fun a s1 hm => ?_⟩
    cases hm
    unfold free at hs ⊢
    simp only
    omega
  · exact ⟨by simp, fun a s1 hm => by cases hm; exact hs⟩

theorem pushM_eval (v : Value) (s : LuaState) :
    pushM v s = if s.stack.length < s.cap then (.ok (), { s with stack := v :: s.stack })
      else (.overflow, s) := rfl

/-- Computations that never push (their result stack is no longer than the
    input stack) and never shrink the capacity preserve any headroom. -/
theorem triple_of_presLen {α : Type} {k : Nat} (m : M α)
    (h : ∀ s, (m s).1 ≠ .overflow ∧ ∀ a s1, m s = (.ok a, s1) →
      s1.stack.length ≤ s.stack.length ∧ s.cap ≤ s1.cap) :
    triple (free k) m (fun _ => free k) := by
  intro s hs
  obtain ⟨h1, h2⟩ := h s
  refine ⟨h1, fun a s1 hm => ?_⟩
  obtain ⟨hl, hc⟩ := h2 a s1 hm
  unfold free at hs ⊢
  omega

theorem triple_insertM {k : Nat} (i : Int) :
    triple (free k) (insertM i) (fun _ => free k) := by
  refine triple_of_presLen _ (fun s => ?_)
  unfold insertM
  constructor
  · repeat' split
    all_goals simp
  · intro a s1 hm
    repeat' split at hm
    all_goals cases hm
    all_goals rename_i top rest heq hcond
    all_goals simp_all [List.length_append, List.length_take, List.length_drop]
    all_goals omega

theorem triple_replaceM {k : Nat} (i : Int) :
    triple (free k) (replaceM i) (fun _ => free k) := by
  refine triple_of_presLen _ (fun s => ?_)
  unfold replaceM
  constructor
  · repeat' split
    all_goals simp
  · intro a s1 hm
    repeat' split at hm
    all_goals cases hm
    all_goals rename_i top rest heq hcond
    all_goals simp_all [List.length_set]

theorem triple_popM {k : Nat} (n : Nat) :
    triple (free k) (popM n) (fun _ => free k) := by
  refine triple_of_presLen _ (fun s => ?_)
  unfold popM
  exact ⟨by simp, fun a s1 hm => by cases hm; simp⟩

theorem triple_rawgetM {k : Nat} (i : Int) :
    triple (free k) (rawgetM i) (fun _ => free k) := by
  refine triple_of_presLen _ (fun s => ?_)
  unfold rawgetM
  constructor
  · repeat' split
    all_goals simp
  · intro a s1 hm
    repeat' split at hm
    all_goals cases hm
    all_goals simp_all

theorem triple_rawsetM {k : Nat} (i : Int) :
    triple (free k) (rawsetM i) (fun _ => free k) := by
  refine triple_of_presLen _ (fun s => ?_)
  unfold rawsetM
  constructor
  · repeat' split
    all_goals simp
  · intro a s1 hm
    repeat' split at hm
    all_goals cases hm
    all_goals simp_all
    all_goals omega

theorem triple_setmetatableM {k : Nat} (i : Int) :
    triple (free k) (setmetatableM i) (fun _ => free k) := by
  refine triple_of_presLen _ (fun s => ?_)
  unfold setmetatableM
  constructor
  · repeat' split
    all_goals simp
  · intro a s1 hm
    repeat' split at hm
    all_goals cases hm
    all_goals simp_all

theorem triple_refM {k : Nat} (i : Int) :
    triple (free k) (refM i) (fun _ => free k) := by
  refine triple_of_presLen _ (fun s => ?_)
  unfold refM
  constructor
  · repeat' split
    all_goals simp
  · intro a s1 hm
    repeat' split at hm
    all_goals cases hm
    all_goals simp_all

theorem triple_luaErrorM {P : LuaState → Prop} {Q : Nat → LuaState → Prop} :
    triple P luaErrorM Q := by
  intro s hs
  unfold luaErrorM
  constructor
  · split <;> simp
  · intro a s1 hm
    split at hm <;> cases hm

theorem triple_assertNumM {k : Nat} (i : Int) :
    triple (free k) (assertNumM i) (fun _ => free k) := by
  refine triple_of_presLen _ (fun s => ?_)
  unfold assertNumM
  constructor
  · repeat' split
    all_goals simp
  · intro a s1 hm
    repeat' split at hm
    all_goals cases hm
    all_goals simp

theorem triple_tointeger {k : Nat} (i : Int) :
    triple (free k) (lua_tointeger_prim i) (fun _ => free k) := by
  refine triple_of_presLen _ (fun s => ?_)
  unfold lua_tointeger_prim
  constructor
  · repeat' split
    all_goals simp
  · intro a s1 hm
    repeat' split at hm
    all_goals cases hm
    all_goals simp

theorem triple_touserdataExcPtrM {k : Nat} (i : Int) :
    triple (free k) (touserdataExcPtrM i) (fun _ => free k) := by
  refine triple_of_presLen _ (fun s => ?_)
  unfold touserdataExcPtrM
  constructor
  · repeat' split
    all_goals simp
  · intro a s1 hm
    repeat' split at hm
    all_goals cases hm
    all_goals simp
theorem triple_pushvalueM {k : Nat} (i : Int) :
    triple (free (k + 1)) (pushvalueM i) (fun _ => free k) := by
  intro s hs
  have hlt : s.stack.length < s.cap := by unfold free at hs; omega
  unfold pushvalueM
  constructor
  · split
    · rw [pushM_eval]
      simp [hlt]
    · simp
  · intro a s1 hm
    split at hm
    · rw [pushM_eval, if_pos hlt] at hm
      cases hm
      unfold free at hs ⊢
      simp only [List.length_cons]
      omega
    · cases hm

theorem triple_rawgetiM {k : Nat} (i n : Int) :
    triple (free (k + 1)) (rawgetiM i n) (fun _ => free k) := by
  intro s hs
  have hlt : s.stack.length < s.cap := by unfold free at hs; omega
  unfold rawgetiM
  constructor
  · repeat' split
    · rw [pushM_eval]
      simp [hlt]
    all_goals simp
  · intro a s1 hm
    repeat' split at hm
    · rw [pushM_eval, if_pos hlt] at hm
      cases hm
      unfold free at hs ⊢
      simp only [List.length_cons]
      omega
    all_goals cases hm

theorem triple_getmetatableM {k : Nat} (i : Int) :
    triple (free (k + 1)) (getmetatableM i) (fun _ => free k) := by
  intro s hs
  unfold free at hs
  unfold getmetatableM
  constructor
  · repeat' split
    all_goals first | (exfalso; omega) | simp
  · intro a s1 hm
    repeat' split at hm
    all_goals cases hm
    all_goals unfold free
    all_goals (try simp_all [List.length_cons])
    all_goals omega

theorem triple_newtableM {k : Nat} :
    triple (free (k + 1)) newtableM (fun _ => free k) := by
  intro s hs
  have hlt : s.stack.length < s.cap := by unfold free at hs; omega
  unfold newtableM
  rw [if_pos hlt]
  refine ⟨by simp, fun a s1 hm => ?_⟩
  cases hm
  unfold free at hs ⊢
  simp only [List.length_cons]
  omega

theorem triple_newmetatableM {k : Nat} (name : String) :
    triple (free (k + 1)) (newmetatableM name) (fun _ => free k) := by
  intro s hs
  have hlt : s.stack.length < s.cap := by unfold free at hs; omega
  unfold newmetatableM
  constructor
  · split
    all_goals rw [pushM_eval]
    all_goals simp [hlt]
  · intro a s1 hm
    split at hm
    all_goals rw [pushM_eval, if_pos hlt] at hm
    all_goals cases hm
    all_goals unfold free at hs ⊢
    all_goals simp only [List.length_cons]
    all_goals omega

theorem triple_createuserdataExcPtr {k : Nat} (e : HostExc) :
    triple (free (k + 1)) (createuserdataExcPtr e) (fun _ => free k) := by
  intro s hs
  have hlt : s.stack.length < s.cap := by unfold free at hs; omega
  unfold createuserdataExcPtr
  rw [if_pos hlt]
  refine ⟨by simp, fun a s1 hm => ?_⟩
  cases hm
  unfold free at hs ⊢
  simp only [List.length_cons]
  omega

theorem triple_createuserdataCppFn {k : Nat} (fnId : Nat) :
    triple (free (k + 1)) (createuserdataCppFn fnId) (fun _ => free k) := by
  intro s hs
  have hlt : s.stack.length < s.cap := by unfold free at hs; omega
  unfold createuserdataCppFn
  rw [if_pos hlt]
  refine ⟨by simp, fun a s1 hm => ?_⟩
  cases hm
  unfold free at hs ⊢
  simp only [List.length_cons]
  omega

theorem triple_pushcclosureM {k : Nat} (f : CFunId) (n : Nat) (hn : 1 ≤ n) :
    triple (free k) (pushcclosureM f n) (fun _ => free k) := by
  intro s hs
  unfold pushcclosureM
  constructor
  · split
    · rw [pushM_eval]
      split
      · simp
      · rename_i hc
        exfalso
        unfold free at hs
        simp only [List.length_drop] at hc
        omega
    · simp
  · intro a s1 hm
    split at hm
    · rw [pushM_eval] at hm
      split at hm
      · cases hm
        unfold free at hs ⊢
        simp only [List.length_cons, List.length_drop]
        omega
      · cases hm
    · cases hm

theorem triple_compare_prim {k : Nat} (i1 i2 : Int) (co : CmpOutcome) :
    triple (free k) (lua_compare_prim i1 i2 co) (fun _ => free k) := by
  refine triple_of_presLen _ (fun s => ?_)
  unfold lua_compare_prim
  constructor
  · repeat' split
    all_goals simp
  · intro a s1 hm
    repeat' split at hm
    all_goals cases hm
    all_goals simp

theorem triple_concat_prim {k : Nat} (n : Nat) (co : OpOutcome) :
    triple (free (k + 1)) (lua_concat_prim n co) (fun _ => free k) := by
  intro s hs
  unfold lua_concat_prim
  constructor
  · repeat' split
    · rw [pushM_eval]
      split
      · simp
      · rename_i hc
        exfalso
        unfold free at hs
        simp only [List.length_drop] at hc
        omega
    all_goals simp
  · intro a s1 hm
    repeat' split at hm
    · rw [pushM_eval] at hm
      split at hm
      · cases hm
        unfold free at hs ⊢
        simp only [List.length_cons, List.length_drop]
        omega
      · cases hm
    all_goals cases hm

theorem triple_gettable_prim {k : Nat} (i : Int) (go : OpOutcome) :
    triple (free k) (lua_gettable_prim i go) (fun _ => free k) := by
  refine triple_of_presLen _ (fun s => ?_)
  unfold lua_gettable_prim
  constructor
  · repeat' split
    all_goals simp
  · intro a s1 hm
    repeat' split at hm
    all_goals cases hm
    all_goals simp_all

theorem triple_settable_prim {k : Nat} (i : Int) (go : SetOutcome) :
    triple (free k) (lua_settable_prim i go) (fun _ => free k) := by
  refine triple_of_presLen _ (fun s => ?_)
  unfold lua_settable_prim
  constructor
  · repeat' split
    all_goals simp
  · intro a s1 hm
    repeat' split at hm
    all_goals cases hm
    all_goals simp_all
    all_goals omega

theorem triple_next_prim {k : Nat} (i : Int) (no : NextOutcome) :
    triple (free (k + 2)) (lua_next_prim i no) (fun _ => free k) := by
  intro s hs
  unfold free at hs
  unfold lua_next_prim
  constructor
  · repeat' split
    all_goals first | (exfalso; (try simp_all [List.length_cons]); omega) | simp
  · intro a s1 hm
    repeat' split at hm
    all_goals cases hm
    all_goals unfold free
    all_goals (try simp_all [List.length_cons])
    all_goals omega
theorem triple_rawgetfield {k : Nat} (i : Int) (key : String) :
    triple (free (k + 1)) (rawgetfield i key) (fun _ => free k) := by
  unfold rawgetfield absindexM
  refine triple_bind (triple_get _) (fun idx => ?_)
  refine triple_bind (triple_checkstack_raw 1) (fun ok => ?_)
  refine triple_ite _ (fun _ => ?_) (fun _ => triple_throwHost _)
  exact triple_bind (triple_pushM' _) (fun _ => triple_rawgetM idx)

theorem triple_push_lua_error (e : LuaExcObj) :
    triple (fun _ => True) (push_lua_error e) (fun _ _ => True) := by
  unfold push_lua_error
  refine triple_bind (Q := fun _ _ => True) ?_ (fun _ => ?_)
  · intro s _
    by_cases hc : s.handleId ≠ e.L <;>
      exact ⟨by simp [hc], fun a s1 hm => trivial⟩
  · refine triple_bind (triple_checkstack 2) (fun _ => ?_)
    refine triple_bind (triple_rawgetfield (k := 1) _ _) (fun _ => ?_)
    refine triple_bind (triple_rawgetiM (k := 0) _ _) (fun _ => ?_)
    exact triple_conseq (triple_replaceM (k := 0) _) (fun s h => h) (fun a s _ => trivial)

theorem lua_tolstring_noov (i : Int) (s : LuaState) :
    (lua_tolstring i s).1 ≠ .overflow ∧
    (lua_tolstring i s).2.stack.length = s.stack.length ∧
    (lua_tolstring i s).2.cap = s.cap := by
  unfold lua_tolstring
  cases hv : s.valueAt i with
  | none => simp only [hv]; simp
  | some v =>
    cases v
    case num n =>
      simp only [hv]
      refine ⟨?_, ?_, ?_⟩ <;> (split <;> simp [List.length_set])
    all_goals simp only [hv]
    all_goals simp

theorem tostring_noov (i : Int) (s : LuaState) :
    (tostring i s).1 ≠ .overflow ∧
    (tostring i s).2.stack.length = s.stack.length ∧
    (tostring i s).2.cap = s.cap := by
  obtain ⟨h1, h2, h3⟩ := lua_tolstring_noov i s
  unfold tostring
  rw [M_bind_eq]
  cases hv : lua_tolstring i s with
  | mk o s1 =>
    rw [hv] at h1 h2 h3
    simp only at h1 h2 h3
    cases o with
    | ok a =>
      cases a with
      | some t => exact ⟨by simp [M_pure_eq], by simp [M_pure_eq, h2], by simp [M_pure_eq, h3]⟩
      | none => exact ⟨by simp [throwHost], by simp [throwHost, h2], by simp [throwHost, h3]⟩
    | hostExc e => exact ⟨by simp, by simp [h2], by simp [h3]⟩
    | luaErr v => exact ⟨by simp, by simp [h2], by simp [h3]⟩
    | overflow => exact absurd rfl h1
    | fault => exact ⟨by simp, by simp [h2], by simp [h3]⟩

theorem triple_get_error_msg :
    triple (fun _ => True) get_error_msg (fun _ _ => True) := by
  intro s _
  unfold get_error_msg
  obtain ⟨h1, _, _⟩ := tostring_noov (-1) s
  constructor
  · cases hv : tostring (-1) s with
    | mk o s1 =>
      rw [hv] at h1
      simp only at h1
      cases o with
      | ok a => simp
      | hostExc e => cases e <;> simp
      | luaErr v => simp
      | overflow => exact absurd rfl h1
      | fault => simp
  · intro a s1 hm
    trivial

theorem triple_exception_mk :
    triple (fun _ => True) exception_mk (fun _ _ => True) := by
  unfold exception_mk
  refine triple_bind triple_get_error_msg (fun msg => ?_)
  refine triple_bind (triple_checkstack 1) (fun _ => ?_)
  refine triple_bind (triple_rawgetfield (k := 0) _ _) (fun _ => ?_)
  refine triple_bind (triple_insertM (k := 0) _) (fun _ => ?_)
  refine triple_bind (triple_refM (k := 0) _) (fun key => ?_)
  refine triple_bind (triple_popM (k := 0) _) (fun _ => ?_)
  exact triple_conseq (triple_get _) (fun s h => trivial) (fun a s _ => trivial)

theorem triple_call_classify (r : Nat) :
    triple (fun _ => True) (call_classify r) (fun _ _ => True) := by
  unfold call_classify
  refine triple_ite _ (fun _ => triple_pure _ (fun _ _ => trivial)) (fun _ => ?_)
  refine triple_bind (Q := fun _ _ => True) (triple_pure _ (fun _ _ => trivial)) (fun _ => ?_)
  refine triple_ite _ (fun _ => triple_throwHost _) (fun _ => ?_)
  refine triple_bind (triple_checkstack 3) (fun _ => ?_)
  refine triple_bind (triple_rawgetfield (k := 2) _ _) (fun _ => ?_)
  refine triple_bind (triple_getmetatableM (k := 1) _) (fun hasmt => ?_)
  refine triple_bind (Q := fun _ => free 1) ?_ (fun _ => ?_)
  · refine triple_ite _ (fun _ => ?_) (fun _ => triple_pure _ (fun s hs => hs))
    unfold rawequalM
    refine triple_bind (triple_get _) (fun req => ?_)
    refine triple_ite _ (fun _ => ?_) (fun _ => triple_popM (k := 1) 2)
    refine triple_bind (triple_touserdataExcPtrM (k := 1) _) (fun e => ?_)
    refine triple_bind (triple_popM (k := 1) 3) (fun _ => ?_)
    exact triple_throwHost _
  · refine triple_ite _ (fun _ => ?_) (fun _ => ?_) <;>
    · refine triple_bind (triple_conseq triple_exception_mk (fun _ _ => trivial)
        (fun _ _ _ => trivial)) (fun ex => ?_)
      exact triple_throwHost _

theorem triple_pcall_run (nargs : Nat) (nres : Int) (body : M Nat)
    (hbody : ∀ s, free MINSTACK s → (body s).1 ≠ .overflow) :
    triple (fun _ => True) (pcall_run nargs nres body) (fun _ => free 0) := by
  intro s _
  simp only [pcall_run]
  split
  case isTrue h =>
    have hfr : free MINSTACK
        { s with stack := s.stack.take nargs, cap := nargs + MINSTACK, pcalls := s.pcalls + 1 } := by
      unfold free
      simp only [List.length_take]
      omega
    cases hb : body { s with stack := s.stack.take nargs, cap := nargs + MINSTACK, pcalls := s.pcalls + 1 } with
    | mk o s1 =>
      cases o with
      | ok n2 =>
        refine ⟨by simp, fun a s2 hm => ?_⟩
        cases hm
        unfold free
        simp only [Nat.add_zero]
        exact Nat.le_max_right _ _
      | luaErr v =>
        refine ⟨by simp, fun a s2 hm => ?_⟩
        cases hm
        unfold free
        simp only [Nat.add_zero]
        exact Nat.le_max_right _ _
      | hostExc e => exact ⟨by simp, fun a s2 hm => by cases hm⟩
      | overflow => exact absurd (by rw [hb]) (hbody _ hfr)
      | fault => exact ⟨by simp, fun a s2 hm => by cases hm⟩
  case isFalse h => exact ⟨by simp, fun a s1 hm => by cases hm⟩

theorem triple_call_run (nargs : Nat) (nres : Int) (body : M Nat)
    (hbody : ∀ s, free MINSTACK s → (body s).1 ≠ .overflow) :
    triple (fun _ => True) (call_run nargs nres body) (fun _ _ => True) := by
  unfold call_run call_with
  refine triple_bind (triple_pcall_run nargs nres body hbody) (fun r => ?_)
  exact triple_conseq (triple_call_classify r) (fun _ _ => trivial) (fun _ _ _ => trivial)
theorem triple_top {α : Type} {P : LuaState → Prop} (m : M α)
    (h : ∀ s, (m s).1 ≠ .overflow) : triple P m (fun _ _ => True) :=
  fun s _ => ⟨h s, fun _ _ _ => trivial⟩

theorem noov_popM (n : Nat) (s : LuaState) : (popM n s).1 ≠ .overflow := by
  unfold popM
  simp

theorem noov_assertNumM (i : Int) (s : LuaState) : (assertNumM i s).1 ≠ .overflow := by
  unfold assertNumM
  repeat' split
  all_goals simp

theorem noov_tointeger (i : Int) (s : LuaState) : (lua_tointeger_prim i s).1 ≠ .overflow := by
  unfold lua_tointeger_prim
  repeat' split
  all_goals simp

theorem triple_safe_concat_trampoline (co : OpOutcome) :
    triple (free MINSTACK) (safe_concat_trampoline co) (fun _ _ => True) := by
  unfold safe_concat_trampoline
  refine triple_bind (triple_get _) (fun n => ?_)
  refine triple_bind (triple_conseq (triple_concat_prim (k := 0) n co)
    (fun s h => free_mono (by decide) h) (fun a s h => h)) (fun _ => ?_)
  exact triple_pure _ (fun _ _ => trivial)

theorem triple_safe_compare_trampoline (co : CmpOutcome) :
    triple (free MINSTACK) (safe_compare_trampoline co) (fun _ _ => True) := by
  unfold safe_compare_trampoline
  refine triple_bind (triple_compare_prim (k := MINSTACK) 1 2 co) (fun r => ?_)
  refine triple_bind (triple_popM (k := MINSTACK) 2) (fun _ => ?_)
  refine triple_bind (triple_conseq (triple_pushM' (k := 0) _)
    (fun s h => free_mono (by decide) h) (fun a s h => h)) (fun _ => ?_)
  exact triple_pure _ (fun _ _ => trivial)

theorem triple_safe_gc_trampoline (gr : Int) :
    triple (free MINSTACK) (safe_gc_trampoline gr) (fun _ _ => True) := by
  unfold safe_gc_trampoline
  refine triple_bind (triple_tointeger (k := MINSTACK) _) (fun w => ?_)
  refine triple_bind (triple_tointeger (k := MINSTACK) _) (fun d => ?_)
  refine triple_bind (triple_popM (k := MINSTACK) 2) (fun _ => ?_)
  refine triple_bind (triple_conseq (triple_pushM' (k := 0) _)
    (fun s h => free_mono (by decide) h) (fun a s h => h)) (fun _ => ?_)
  exact triple_pure _ (fun _ _ => trivial)

theorem triple_safe_gettable_trampoline (go : OpOutcome) :
    triple (free MINSTACK) (safe_gettable_trampoline go) (fun _ _ => True) := by
  unfold safe_gettable_trampoline
  refine triple_bind (triple_gettable_prim (k := MINSTACK) 1 go) (fun _ => ?_)
  exact triple_pure _ (fun _ _ => trivial)

theorem triple_safe_settable_trampoline (go : SetOutcome) :
    triple (free MINSTACK) (safe_settable_trampoline go) (fun _ _ => True) := by
  unfold safe_settable_trampoline
  refine triple_bind (triple_settable_prim (k := MINSTACK) 1 go) (fun _ => ?_)
  exact triple_pure _ (fun _ _ => trivial)

theorem triple_safe_next_trampoline (no : NextOutcome) :
    triple (free MINSTACK) (safe_next_trampoline no) (fun _ _ => True) := by
  unfold safe_next_trampoline
  refine triple_bind (triple_conseq (triple_next_prim (k := 2) 1 no)
    (fun s h => free_mono (by decide) h) (fun a s h => h)) (fun r => ?_)
  refine triple_bind (triple_checkstack_raw (k := 2) 1) (fun _ => ?_)
  refine triple_bind (triple_conseq (triple_pushM' (k := 1) _)
    (fun s h => h) (fun a s h => h)) (fun _ => ?_)
  exact triple_pure _ (fun _ _ => trivial)

theorem triple_closure_trampoline (fo : FnOutcome) :
    triple (free MINSTACK) (closure_trampoline fo) (fun _ _ => True) := by
  unfold closure_trampoline
  refine triple_bind (triple_checkstack_raw (k := MINSTACK) 2) (fun _ => ?_)
  refine triple_bind (triple_conseq (triple_rawgetfield (k := 3) _ _)
    (fun s h => free_mono (by decide) h) (fun a s h => h)) (fun _ => ?_)
  refine triple_bind (triple_of_pres (P := free 3) (fun s => ?_)) (fun L => ?_)
  · constructor
    · repeat' split
      all_goals simp
    · intro a s1 hm
      repeat' split at hm
      all_goals cases hm
      all_goals rfl
  · refine triple_bind (triple_popM (k := 3) 1) (fun _ => ?_)
    cases fo with
    | ok n => exact triple_pure _ (fun _ _ => trivial)
    | throws e =>
      simp only []
      cases he : isLuaExc e with
      | some ex =>
        simp only [he]
        refine triple_bind (triple_conseq (triple_push_lua_error ex)
          (fun _ _ => trivial) (fun _ _ _ => trivial)) (fun _ => ?_)
        exact triple_luaErrorM
      | none =>
        simp only [he]
        refine triple_bind (triple_createuserdataExcPtr (k := 2) e) (fun _ => ?_)
        refine triple_bind (triple_rawgetfield (k := 1) _ _) (fun _ => ?_)
        refine triple_bind (triple_setmetatableM (k := 1) _) (fun _ => ?_)
        exact triple_luaErrorM

theorem triple_concat (n : Nat) (co : OpOutcome) :
    triple (fun _ => True) (concat n co) (fun _ _ => True) := by
  unfold concat
  refine triple_bind (triple_checkstack 1) (fun _ => ?_)
  refine triple_bind (triple_pushM' (k := 0) _) (fun _ => ?_)
  refine triple_bind (triple_insertM (k := 0) _) (fun _ => ?_)
  exact triple_conseq (triple_call_run _ _ _
    (fun s h => ((triple_safe_concat_trampoline co) s h).1))
    (fun _ _ => trivial) (fun _ _ _ => trivial)

theorem triple_safe_compare (t : CFunId) (co : CmpOutcome) (i1 i2 : Int) :
    triple (fun _ => True) (safe_compare t co i1 i2) (fun _ _ => True) := by
  unfold safe_compare absindexM
  refine triple_bind (triple_get _) (fun invalid => ?_)
  refine triple_ite _ (fun _ => triple_pure _ (fun _ _ => trivial)) (fun _ => ?_)
  refine triple_bind (triple_get _) (fun j1 => ?_)
  refine triple_bind (triple_get _) (fun j2 => ?_)
  refine triple_bind (triple_checkstack 3) (fun _ => ?_)
  refine triple_bind (triple_pushM' (k := 2) _) (fun _ => ?_)
  refine triple_bind (triple_pushvalueM (k := 1) _) (fun _ => ?_)
  refine triple_bind (triple_pushvalueM (k := 0) _) (fun _ => ?_)
  refine triple_bind (triple_conseq (triple_call_run _ _ _
    (fun s h => ((triple_safe_compare_trampoline co) s h).1))
    (fun _ _ => trivial) (fun _ _ _ => trivial)) (fun _ => ?_)
  refine triple_bind (triple_top _ (noov_assertNumM _)) (fun _ => ?_)
  refine triple_bind (triple_top _ (noov_tointeger _)) (fun r => ?_)
  refine triple_bind (triple_top _ (noov_popM _)) (fun _ => ?_)
  exact triple_pure _ (fun _ _ => trivial)

theorem triple_equal (i1 i2 : Int) (co : CmpOutcome) :
    triple (fun _ => True) (equal i1 i2 co) (fun _ _ => True) := by
  unfold equal rawequalM
  refine triple_bind (triple_get _) (fun raweq => ?_)
  refine triple_ite _ (fun _ => triple_pure _ (fun _ _ => trivial)) (fun _ => ?_)
  exact triple_safe_compare _ co i1 i2

theorem triple_lessthan (i1 i2 : Int) (co : CmpOutcome) :
    triple (fun _ => True) (lessthan i1 i2 co) (fun _ _ => True) := by
  unfold lessthan
  exact triple_safe_compare _ co i1 i2

theorem triple_gc (w d gr : Int) :
    triple (fun _ => True) (gc w d gr) (fun _ _ => True) := by
  unfold gc
  refine triple_bind (triple_checkstack 3) (fun _ => ?_)
  refine triple_bind (triple_pushM' (k := 2) _) (fun _ => ?_)
  refine triple_bind (triple_pushM' (k := 1) _) (fun _ => ?_)
  refine triple_bind (triple_pushM' (k := 0) _) (fun _ => ?_)
  refine triple_bind (triple_conseq (triple_call_run _ _ _
    (fun s h => ((triple_safe_gc_trampoline gr) s h).1))
    (fun _ _ => trivial) (fun _ _ _ => trivial)) (fun _ => ?_)
  refine triple_bind (triple_top _ (noov_assertNumM _)) (fun _ => ?_)
  refine triple_bind (triple_top _ (noov_tointeger _)) (fun r => ?_)
  refine triple_bind (triple_top _ (noov_popM _)) (fun _ => ?_)
  exact triple_pure _ (fun _ _ => trivial)

theorem triple_gettable (i : Int) (go : OpOutcome) :
    triple (fun _ => True) (gettable i go) (fun _ _ => True) := by
  unfold gettable
  refine triple_bind (triple_checkstack 2) (fun _ => ?_)
  refine triple_bind (triple_pushvalueM (k := 1) _) (fun _ => ?_)
  refine triple_bind (triple_insertM (k := 1) _) (fun _ => ?_)
  refine triple_bind (triple_pushM' (k := 0) _) (fun _ => ?_)
  refine triple_bind (triple_insertM (k := 0) _) (fun _ => ?_)
  exact triple_conseq (triple_call_run _ _ _
    (fun s h => ((triple_safe_gettable_trampoline go) s h).1))
    (fun _ _ => trivial) (fun _ _ _ => trivial)

theorem triple_getfield (i : Int) (key : String) (go : OpOutcome) :
    triple (fun _ => True) (getfield i key go) (fun _ _ => True) := by
  unfold getfield absindexM
  refine triple_bind (triple_checkstack 1) (fun _ => ?_)
  refine triple_bind (triple_get _) (fun idx => ?_)
  refine triple_bind (triple_pushM' (k := 0) _) (fun _ => ?_)
  exact triple_conseq (triple_gettable idx go) (fun _ _ => trivial) (fun _ _ _ => trivial)

theorem triple_settable (i : Int) (go : SetOutcome) :
    triple (fun _ => True) (settable i go) (fun _ _ => True) := by
  unfold settable
  refine triple_bind (triple_checkstack 2) (fun _ => ?_)
  refine triple_bind (triple_pushvalueM (k := 1) _) (fun _ => ?_)
  refine triple_bind (triple_insertM (k := 1) _) (fun _ => ?_)
  refine triple_bind (triple_pushM' (k := 0) _) (fun _ => ?_)
  refine triple_bind (triple_insertM (k := 0) _) (fun _ => ?_)
  exact triple_conseq (triple_call_run _ _ _
    (fun s h => ((triple_safe_settable_trampoline go) s h).1))
    (fun _ _ => trivial) (fun _ _ _ => trivial)

theorem triple_setfield (i : Int) (key : String) (go : SetOutcome) :
    triple (fun _ => True) (setfield i key go) (fun _ _ => True) := by
  unfold setfield absindexM
  refine triple_bind (triple_checkstack 1) (fun _ => ?_)
  refine triple_bind (triple_get _) (fun idx => ?_)
  refine triple_bind (triple_pushM' (k := 0) _) (fun _ => ?_)
  refine triple_bind (triple_insertM (k := 0) _) (fun _ => ?_)
  exact triple_conseq (triple_settable idx go) (fun _ _ => trivial) (fun _ _ _ => trivial)

theorem triple_next (i : Int) (no : NextOutcome) :
    triple (fun _ => True) (next i no) (fun _ _ => True) := by
  unfold next
  refine triple_bind (triple_checkstack 2) (fun _ => ?_)
  refine triple_bind (triple_pushvalueM (k := 1) _) (fun _ => ?_)
  refine triple_bind (triple_insertM (k := 1) _) (fun _ => ?_)
  refine triple_bind (triple_pushM' (k := 0) _) (fun _ => ?_)
  refine triple_bind (triple_insertM (k := 0) _) (fun _ => ?_)
  refine triple_bind (triple_conseq (triple_call_run _ _ _
    (fun s h => ((triple_safe_next_trampoline no) s h).1))
    (fun _ _ => trivial) (fun _ _ _ => trivial)) (fun _ => ?_)
  refine triple_bind (triple_top _ (noov_assertNumM _)) (fun _ => ?_)
  refine triple_bind (triple_top _ (noov_tointeger _)) (fun r => ?_)
  refine triple_bind (triple_top _ (noov_popM _)) (fun _ => ?_)
  exact triple_pure _ (fun _ _ => trivial)

theorem triple_pushclosure (fnId n : Nat) :
    triple (fun _ => True) (pushclosure fnId n) (fun _ _ => True) := by
  unfold pushclosure
  refine triple_bind (triple_checkstack 2) (fun _ => ?_)
  refine triple_bind (triple_createuserdataCppFn (k := 1) _) (fun _ => ?_)
  refine triple_bind (triple_rawgetfield (k := 0) _ _) (fun _ => ?_)
  refine triple_bind (triple_setmetatableM (k := 0) _) (fun _ => ?_)
  refine triple_bind (triple_insertM (k := 0) _) (fun _ => ?_)
  exact triple_conseq (triple_pushcclosureM (k := 0) _ (n + 1) (by omega))
    (fun s h => h) (fun _ _ _ => trivial)
/-- C5: capacity discipline of the wrapper operations and their trampolines.
    Conjuncts 1-10: when the relevant lua_checkstack-based verification fails
    (the growth request exceeds both the allocated capacity and the maximum),
    state::checkstack — and therefore each wrapper operation at its entry
    check — raises std::bad_alloc with the state unchanged: nothing is
    pushed.  Conjuncts 11-21: from any state whatsoever, no wrapper
    operation ever pushes past the allocated capacity (the `overflow`
    outcome, the memory-unsafe C behaviour, is unreachable): every push
    sequence is covered by a prior capacity check.  Conjuncts 22-28: the
    trampolines never push past capacity either, given the LUA_MINSTACK
    free slots the interpreter guarantees to every called C function. -/
theorem wrapper_capacity_discipline :
    (∀ (s : LuaState) (n : Nat), ¬(s.stack.length + n ≤ s.cap) →
      ¬(s.stack.length + n ≤ s.maxcap) → checkstack n s = (.hostExc .badAlloc, s)) ∧
    (∀ (s : LuaState) (n : Nat) (co : OpOutcome), ¬(s.stack.length + 1 ≤ s.cap) →
      ¬(s.stack.length + 1 ≤ s.maxcap) → concat n co s = (.hostExc .badAlloc, s)) ∧
    (∀ (s : LuaState) (w d gr : Int), ¬(s.stack.length + 3 ≤ s.cap) →
      ¬(s.stack.length + 3 ≤ s.maxcap) → gc w d gr s = (.hostExc .badAlloc, s)) ∧
    (∀ (s : LuaState) (i : Int) (key : String) (go : OpOutcome),
      ¬(s.stack.length + 1 ≤ s.cap) → ¬(s.stack.length + 1 ≤ s.maxcap) →
      getfield i key go s = (.hostExc .badAlloc, s)) ∧
    (∀ (s : LuaState) (i : Int) (go : OpOutcome), ¬(s.stack.length + 2 ≤ s.cap) →
      ¬(s.stack.length + 2 ≤ s.maxcap) → gettable i go s = (.hostExc .badAlloc, s)) ∧
    (∀ (s : LuaState) (i : Int) (key : String) (go : SetOutcome),
      ¬(s.stack.length + 1 ≤ s.cap) → ¬(s.stack.length + 1 ≤ s.maxcap) →
      setfield i key go s = (.hostExc .badAlloc, s)) ∧
    (∀ (s : LuaState) (i : Int) (go : SetOutcome), ¬(s.stack.length + 2 ≤ s.cap) →
      ¬(s.stack.length + 2 ≤ s.maxcap) → settable i go s = (.hostExc .badAlloc, s)) ∧
    (∀ (s : LuaState) (i : Int) (no : NextOutcome), ¬(s.stack.length + 2 ≤ s.cap) →
      ¬(s.stack.length + 2 ≤ s.maxcap) → next i no s = (.hostExc .badAlloc, s)) ∧
    (∀ (s : LuaState) (t : CFunId) (co : CmpOutcome) (i1 i2 : Int),
      isnone_raw s i1 = false → isnone_raw s i2 = false →
      ¬(s.stack.length + 3 ≤ s.cap) → ¬(s.stack.length + 3 ≤ s.maxcap) →
      safe_compare t co i1 i2 s = (.hostExc .badAlloc, s)) ∧
    (∀ (s : LuaState) (f n : Nat), ¬(s.stack.length + 2 ≤ s.cap) →
      ¬(s.stack.length + 2 ≤ s.maxcap) → pushclosure f n s = (.hostExc .badAlloc, s)) ∧
    (∀ (s : LuaState) (n : Nat) (co : OpOutcome), (concat n co s).1 ≠ .overflow) ∧
    (∀ (s : LuaState) (w d gr : Int), (gc w d gr s).1 ≠ .overflow) ∧
    (∀ (s : LuaState) (i : Int) (key : String) (go : OpOutcome),
      (getfield i key go s).1 ≠ .overflow) ∧
    (∀ (s : LuaState) (i : Int) (go : OpOutcome), (gettable i go s).1 ≠ .overflow) ∧
    (∀ (s : LuaState) (i : Int) (key : String) (go : SetOutcome),
      (setfield i key go s).1 ≠ .overflow) ∧
    (∀ (s : LuaState) (i : Int) (go : SetOutcome), (settable i go s).1 ≠ .overflow) ∧
    (∀ (s : LuaState) (i : Int) (no : NextOutcome), (next i no s).1 ≠ .overflow) ∧
    (∀ (s : LuaState) (t : CFunId) (co : CmpOutcome) (i1 i2 : Int),
      (safe_compare t co i1 i2 s).1 ≠ .overflow) ∧
    (∀ (s : LuaState) (i1 i2 : Int) (co : CmpOutcome), (equal i1 i2 co s).1 ≠ .overflow) ∧
    (∀ (s : LuaState) (i1 i2 : Int) (co : CmpOutcome), (lessthan i1 i2 co s).1 ≠ .overflow) ∧
    (∀ (s : LuaState) (f n : Nat), (pushclosure f n s).1 ≠ .overflow) ∧
    (∀ (s : LuaState) (fo : FnOutcome), free MINSTACK s →
      (closure_trampoline fo s).1 ≠ .overflow) ∧
    (∀ (s : LuaState) (co : OpOutcome), free MINSTACK s →
      (safe_concat_trampoline co s).1 ≠ .overflow) ∧
    (∀ (s : LuaState) (co : CmpOutcome), free MINSTACK s →
      (safe_compare_trampoline co s).1 ≠ .overflow) ∧
    (∀ (s : LuaState) (gr : Int), free MINSTACK s →
      (safe_gc_trampoline gr s).1 ≠ .overflow) ∧
    (∀ (s : LuaState) (go : OpOutcome), free MINSTACK s →
      (safe_gettable_trampoline go s).1 ≠ .overflow) ∧
    (∀ (s : LuaState) (go : SetOutcome), free MINSTACK s →
      (safe_settable_trampoline go s).1 ≠ .overflow) ∧
    (∀ (s : LuaState) (no : NextOutcome), free MINSTACK s →
      (safe_next_trampoline no s).1 ≠ .overflow) := by
  refine ⟨?_, ?_, ?_, ?_, ?_, ?_, ?_, ?_, ?_, ?_, ?_, ?_, ?_, ?_, ?_, ?_, ?_, ?_, ?_, ?_,
    ?_, ?_, ?_, ?_, ?_, ?_, ?_, ?_⟩
  · intro s n h1 h2
    rw [checkstack_eval]
    simp [h1, h2]
  · intro s n co h1 h2
    simp [h1, h2]
  · intro s w d gr h1 h2
    simp [h1, h2]
  · intro s i key go h1 h2
    simp [h1, h2]
  · intro s i go h1 h2
    simp [h1, h2]
  · intro s i key go h1 h2
    simp [h1, h2]
  · intro s i go h1 h2
    simp [h1, h2]
  · intro s i no h1 h2
    simp [h1, h2]
  · intro s t co i1 i2 hv1 hv2 h1 h2
    simp [hv1, hv2, h1, h2]
  · intro s f n h1 h2
    simp [h1, h2]
  · exact fun s n co => ((triple_concat n co) s trivial).1
  · exact fun s w d gr => ((triple_gc w d gr) s trivial).1
  · exact fun s i key go => ((triple_getfield i key go) s trivial).1
  · exact fun s i go => ((triple_gettable i go) s trivial).1
  · exact fun s i key go => ((triple_setfield i key go) s trivial).1
  · exact fun s i go => ((triple_settable i go) s trivial).1
  · exact fun s i no => ((triple_next i no) s trivial).1
  · exact fun s t co i1 i2 => ((triple_safe_compare t co i1 i2) s trivial).1
  · exact fun s i1 i2 co => ((triple_equal i1 i2 co) s trivial).1
  · exact fun s i1 i2 co => ((triple_lessthan i1 i2 co) s trivial).1
  · exact fun s f n => ((triple_pushclosure f n) s trivial).1
  · exact fun s fo h => ((triple_closure_trampoline fo) s h).1
  · exact fun s co h => ((triple_safe_concat_trampoline co) s h).1
  · exact fun s co h => ((triple_safe_compare_trampoline co) s h).1
  · exact fun s gr h => ((triple_safe_gc_trampoline gr) s h).1
  · exact fun s go h => ((triple_safe_gettable_trampoline go) s h).1
  · exact fun s go h => ((triple_safe_settable_trampoline go) s h).1
  · exact fun s no h => ((triple_safe_next_trampoline no) s h).1

/-- Witness for C5 at concrete inputs: a failing capacity check (an
    exhausted stack) raises std::bad_alloc untouched, and a trampoline under
    the LUA_MINSTACK guarantee does not overflow. -/
theorem wrapper_capacity_discipline_witness :
    checkstack 1 { init_state 7 with cap := 0, maxcap := 0 } =
      (.hostExc .badAlloc, { init_state 7 with cap := 0, maxcap := 0 }) ∧
    concat 0 (.val .nil) { init_state 7 with cap := 0, maxcap := 0 } =
      (.hostExc .badAlloc, { init_state 7 with cap := 0, maxcap := 0 }) ∧
    (safe_next_trampoline .done
        { init_state 7 with stack := [Value.nil, Value.table 3], cap := 22 }).1 ≠ .overflow :=
  ⟨wrapper_capacity_discipline.1 { init_state 7 with cap := 0, maxcap := 0 } 1
      (by decide) (by decide),
    wrapper_capacity_discipline.2.1 { init_state 7 with cap := 0, maxcap := 0 } 0 (.val .nil)
      (by decide) (by decide),
    wrapper_capacity_discipline.2.2.2.2.2.2.2.2.2.2.2.2.2.2.2.2.2.2.2.2.2.2.2.2.2.2.2
      { init_state 7 with stack := [Value.nil, Value.table 3], cap := 22 } .done
      (by unfold free; decide)⟩

end luamm
